import Mathlib

/-!
A shallow embedding, in Lean 4, of the `suba` template engine
(`suba.py`): the chunk lexer `gen_chunks`, the parser/IR assembler
`gen_ast` and `compile_ast` with its cursor stack, the three-pass
`Transformer`, the execution driver `template` with its code cache and
first-yield handshake, and the CSS-like element synthesizer `synth`.

Strings are modelled as `List Char`.  Machine details that the source
treats as external collaborators (Python's `ast.parse`, `str.__hash__`,
the `%` formatting operator, the builtin namespace, the filesystem)
are modelled as executable stand-ins on exactly the fragment the
verified templates exercise, and are documented at their definitions.
-/

/-- Shorthand: the character list of a string literal. -/
def tl (s : String) : List Char := s.toList

/-! ## Errors

A single error type covering the failure modes of the whole pipeline:
`FormatError` (the source's parsing exception), Python `IndexError`
(out-of-range indexing, e.g. `text[i+1]` past the end), re-raised
embedded-language parse errors, runtime errors of the generated code,
and the cases where the model's Python fragment runs out
(`unmodeled*`), which never occur on the templates verified here. -/
inductive Err where
  | formatError (msg : List Char)
  | indexError
  | attributeError
  | keyError (k : List Char)
  | nameErrorRaised (n : List Char)
  | namedExc (n : List Char)
  | ioError
  | typeError
  | firstValueExc
  | generatorEmpty
  | fuelOut
  | unmodeledParse
  | unmodeledEval
  deriving Repr, DecidableEq

/-! ## Lexer (`gen_chunks`, `match_forward`)  -/

/-- A lexer chunk: `(text, optional conversion specifier)`. -/
abbrev Chunk : Type := List Char × Option (List Char)

instance {α β : Type} [DecidableEq α] [DecidableEq β] : DecidableEq (Except α β) := fun a b =>
  match a, b with
  | .ok x, .ok y =>
    if h : x = y then isTrue (by rw [h]) else isFalse (fun he => by cases he; exact h rfl)
  | .error x, .error y =>
    if h : x = y then isTrue (by rw [h]) else isFalse (fun he => by cases he; exact h rfl)
  | .ok _, .error _ => isFalse (fun he => by cases he)
  | .error _, .ok _ => isFalse (fun he => by cases he)

/-- `text.find(c, start)` restricted to a suffix: the index of the first
occurrence of `c` in `l`, if any, together with the text before it and
the text after it. -/
def findSplit (c : Char) : List Char → Option (List Char × List Char)
  | [] => none
  | x :: xs =>
    if x = c then some ([], xs)
    else (findSplit c xs).map (fun p => (x :: p.1, p.2))

/-- `match_forward(text, find, against, start)`: depth-counted scan for
the balancing `find` character.  Operates on the suffix after `start`;
returns the text strictly before the balance point and the text after
it, or `none` when the scan falls off the end (the source returns -1). -/
def match_forward (close openC : Char) : List Char → Nat → Option (List Char × List Char)
  | [], _ => none
  | x :: xs, count =>
    let count' := if x = openC then count + 1 else if x = close then count - 1 else count
    if count' = 0 then some ([], xs)
    else (match_forward close openC xs count').map (fun p => (x :: p.1, p.2))

/-- A character matched by `[0-9.#0+-]`, the prefix class of `type_re`. -/
def specPrefixChar (c : Char) : Bool :=
  c.isDigit || c = '.' || c = '#' || c = '+' || c = '-'

/-- A character matched by `[diouxXeEfFgGcrsqm]`, the final class of
`type_re`. -/
def specFinalChar (c : Char) : Bool :=
  (tl "diouxXeEfFgGcrsqm").contains c

/-- `type_re.match(text)`: because the two character classes of
`type_re` are disjoint, the regex match is the maximal run of prefix
characters followed by one final character, or no match. -/
def typeReMatch (l : List Char) : Option (List Char) :=
  let pre := l.takeWhile specPrefixChar
  match l.drop pre.length with
  | c :: _ => if specFinalChar c then some (pre ++ [c]) else none
  | [] => none

/-- One step of the `gen_chunks` loop, on the remaining suffix of the
source.  Fuel bounds the iteration count; `gen_chunks` supplies enough
fuel for any input, so `Err.fuelOut` is unreachable. -/
def gen_chunks_go : Nat → List Char → Except Err (List Chunk)
  | 0, _ => .error .fuelOut
  | fuel + 1, l =>
    if l.isEmpty then .ok [] else
    match findSplit '%' l with
    | none => .ok [(l, none)]
    | some (pre, afterPercent) =>
      match afterPercent with
      | [] => .error .indexError
      | c :: rest =>
        if c = '(' then
          match match_forward ')' '(' rest 1 with
          | none => .error (.formatError (tl "Unmatched %("))
          | some (inside, afterParen) =>
            let chunkText := '(' :: inside ++ [')']
            match typeReMatch afterParen with
            | some spec =>
              (gen_chunks_go fuel (afterParen.drop spec.length)).map
                (fun cs => (pre, none) :: (chunkText, some spec) :: cs)
            | none =>
              (gen_chunks_go fuel afterParen).map
                (fun cs => (pre, none) :: (chunkText, none) :: cs)
        else if c = '/' then
          (gen_chunks_go fuel rest).map
            (fun cs => (pre, none) :: ([ '/' ], none) :: cs)
        else
          (gen_chunks_go fuel (c :: rest)).map
            (fun cs => (pre, none) :: ([ '%' ], none) :: cs)

/-- `gen_chunks(text)`: the lexer.  Yields `(text, type)` pairs; a `%`
followed by `(` opens a directive closed by the balancing `)` and
followed by an optional conversion specifier, `%/` is the close-block
marker, and a `%` followed by any other byte is emitted as a literal
`%` chunk with scanning resuming at that byte.  A `%` as the very last
byte indexes past the end (`text[i+1]`), an `IndexError`. -/
def gen_chunks (text : List Char) : Except Err (List Chunk) :=
  gen_chunks_go (text.length + 1) text


/-! ## The embedded-language AST fragment

The IR the parser assembles is the host language's AST.  We model the
constructors that `gen_ast`, the builders `_call`/`_replace`/`_quote`/
`_multiline`, the `Transformer`, and the preamble assembly actually
produce (line/column attributes, which only decorate nodes, are
omitted). -/

/-- Name contexts (`ast.Load` / `ast.Store`). -/
inductive Ctx where
  | load
  | store
  deriving Repr, DecidableEq

/-- Expression nodes of the fragment. -/
inductive PyExpr where
  | str (s : List Char)
  | name (id : List Char) (ctx : Ctx)
  | subscript (value : PyExpr) (idx : PyExpr) (ctx : Ctx)
  | binopMod (left right : PyExpr)
  | yieldE (value : PyExpr)
  | call (func : PyExpr) (args : List PyExpr)
  | attributeE (value : PyExpr) (attr : List Char)

/-- Statement nodes of the fragment. -/
inductive PyStmt where
  | exprS (value : PyExpr)
  | passS
  | ifS (test : PyExpr) (body orelse : List PyStmt)
  | importS (names : List (List Char))

/-- `_call(func, args)`: `func(args)`. -/
def _call (func : PyExpr) (args : List PyExpr) : PyExpr :=
  .call func args

/-- `_replace(node)`: `node.replace`. -/
def _replace (node : PyExpr) : PyExpr :=
  .attributeE node (tl "replace")

/-- `_quote(node)`: `node.replace('"', '\"')` wrapped in an `Expr`
statement; the two string constants are the one-character string `"`
and the two-character string backslash-quote. -/
def _quote (node : PyExpr) : PyStmt :=
  .exprS (_call (_replace node) [.str [ '"' ], .str [ '\\', '"' ]])

/-- `_multiline(node)`: `node.replace` applied to the one-character
string newline and the two-character string backslash-newline, wrapped
in an `Expr` statement. -/
def _multiline (node : PyExpr) : PyStmt :=
  .exprS (_call (_replace node) [.str [ '\n' ], .str [ '\\', '\n' ]])

/-- Whether a call expression is a call to the bare name `include`
(`type(v) is Call and type(v.func) is Name and v.func.id == 'include'`). -/
def isIncludeCall : PyExpr → Bool
  | .call (.name f _) _ => f = tl "include"
  | _ => false

/-- `_yieldall(body)`: wrap every `Expr` statement whose value is
neither a `Yield` nor a call to `include` into a `yield` of that value.
(The source compares the function name with `is 'include'`; for
interned identifier strings this is string equality.) -/
def _yieldall (body : List PyStmt) : List PyStmt :=
  body.map fun s =>
    match s with
    | .exprS v =>
      match v with
      | .yieldE _ => .exprS v
      | _ => if isIncludeCall v then .exprS v else .exprS (.yieldE v)
    | _ => s

/-! ## The embedded-language adapter (`ast.parse`)  -/

/-- Python keywords that cannot stand as expression identifiers.
`True`, `False` and `None` are lexical keywords in the host version but
still parse to `Name` nodes, so they are not listed here. -/
def pyExprKeywords : List (List Char) :=
  [tl "and", tl "as", tl "assert", tl "break", tl "class", tl "continue",
   tl "def", tl "del", tl "elif", tl "else", tl "except", tl "finally",
   tl "for", tl "from", tl "global", tl "if", tl "import", tl "in",
   tl "is", tl "lambda", tl "nonlocal", tl "not", tl "or", tl "pass",
   tl "raise", tl "return", tl "try", tl "while", tl "with", tl "yield"]

/-- A character allowed after the first character of an identifier. -/
def identChar (c : Char) : Bool := c.isAlpha || c.isDigit || c = '_'

/-- A Python identifier: a letter or underscore followed by letters,
digits and underscores (ASCII fragment). -/
def isIdentL : List Char → Bool
  | [] => false
  | c :: rest => (c.isAlpha || c = '_') && rest.all identChar

/-- Splits an `if <cond>: pass` header produced by `gen_ast` (the
statement text with the sentinel `" pass"` already appended), returning
the condition text. -/
def ifHeader (s : List Char) : Option (List Char) :=
  if (tl "if ").isPrefixOf s then
    let rest := s.drop 3
    if (tl ": pass").isSuffixOf rest then some (rest.take (rest.length - 6))
    else none
  else none

/-- Models the embedded-language adapter: `ast.parse(text).body` on the
fragment of Python the verified templates use — the empty statement
list, a single (non-keyword) identifier, and an `if <identifier>: pass`
block header.  Any other embedded statement is reported as an
unmodeled parse; the templates settled in this file never produce one. -/
def pyParse (s : List Char) : Except Err (List PyStmt) :=
  if s.isEmpty then .ok []
  else if isIdentL s && !(pyExprKeywords.contains s) then
    .ok [.exprS (.name s .load)]
  else
    match ifHeader s with
    | some cond =>
      if isIdentL cond && !(pyExprKeywords.contains cond) then
        .ok [.ifS (.name cond .load) [.passS] []]
      else .error .unmodeledParse
    | none => .error .unmodeledParse


/-! ## The parser (`gen_ast`)

`gen_ast` is a generator interleaved with `compile_ast`'s consuming
loop; the module-global `ASCEND_COUNT` is only incremented by `gen_ast`
(while handling `elif`) and only read and reset by `compile_ast` (while
handling a close marker).  The interleaving is therefore modelled as an
event list: `emit` events carry the yielded `(node, motion)` pairs and
a `bumpAscend` event marks the `ASCEND_COUNT += 1` performed between
the two yields of the `elif` case. -/

/-- Cursor motions. -/
inductive Motion where
  | noMotion
  | ascend
  | descend
  | elseDescend
  deriving Repr, DecidableEq

/-- An event of the `gen_ast` stream. -/
inductive GenEvent where
  | emit (node : Option PyStmt) (motion : Motion)
  | bumpAscend

/-- Flush of the pending-text stack: `''.join(stack)` yielded as
`Expr(Yield(Str(text)))` when non-empty. -/
def flushEvents (stack : List (List Char)) : List GenEvent :=
  if stack.length > 0 then
    let text := stack.flatten
    if text.length > 0 then [.emit (some (.exprS (.yieldE (.str text)))) .noMotion]
    else []
  else []

/-- Directive handling of `gen_ast` (the `chunk[0] == OPEN_PAREN` arm):
given the directive chunk and its optional conversion specifier,
returns the events emitted and the new pending-text stack. -/
def genAstDirective (chunk : List Char) (type_part : Option (List Char)) :
    Except Err (List GenEvent × List (List Char)) :=
  let eval_part := (chunk.drop 1).dropLast
  let (eval_part, motion) :=
    if eval_part.getLast? = some ':' then (eval_part ++ tl " pass", Motion.descend)
    else (eval_part, Motion.noMotion)
  if (tl "else:").isPrefixOf eval_part then
    .ok ([.emit none .elseDescend], [])
  else
    let (preEvents, eval_part, motion) :=
      if (tl "elif ").isPrefixOf eval_part then
        ([GenEvent.emit none .elseDescend, GenEvent.bumpAscend], eval_part.drop 2, Motion.descend)
      else ([], eval_part, motion)
    match pyParse eval_part with
    | .error e => .error e
    | .ok body =>
      let node : Option PyStmt := body.head?
      match type_part with
      | none => .ok (preEvents ++ [.emit node motion], [])
      | some tp =>
        match node with
        | some (.exprS v) =>
          let fq := tp.contains 'q'
          let fm := tp.contains 'm'
          let (s1, v1) := if fq then (_quote v, _call (_replace v) [.str [ '"' ], .str [ '\\', '"' ]])
                          else (.exprS v, v)
          let s2 := if fm then _multiline v1 else s1
          let s3 := if !fq && !fm then
                      PyStmt.exprS (.yieldE (.binopMod (.str ('%' :: tp)) v))
                    else s2
          .ok (preEvents ++ [.emit (some s3) motion], [])
        | _ =>
          -- a node with no `value` attribute (or no node at all): the
          -- specifier text is pushed back as pending literal output
          .ok (preEvents ++ [.emit node motion], [tp])

/-- The chunk-consuming loop of `gen_ast`, threading the pending-text
stack and emitting the event stream. -/
def gen_ast_go : List Chunk → List (List Char) → Except Err (List GenEvent)
  | [], stack =>
    .ok (if stack.isEmpty then []
         else [.emit (some (.exprS (.yieldE (.str stack.flatten)))) .noMotion])
  | (chunk, type_part) :: rest, stack =>
    match chunk with
    | [] => gen_ast_go rest stack
    | c0 :: _ =>
      if c0 ≠ '/' && c0 ≠ '(' then
        gen_ast_go rest (stack ++ [chunk])
      else
        let flushed := flushEvents stack
        if chunk = [ '/' ] then
          let stack' : List (List Char) := if chunk.length > 1 then [chunk.drop 1] else []
          (gen_ast_go rest stack').map (fun evs => flushed ++ [.emit none .ascend] ++ evs)
        else if c0 = '(' then
          match genAstDirective chunk type_part with
          | .error e => .error e
          | .ok (evs1, stack') =>
            (gen_ast_go rest stack').map (fun evs => flushed ++ evs1 ++ evs)
        else
          gen_ast_go rest [chunk] |>.map (fun evs => flushed ++ evs)

/-- `gen_ast(chunks)` as an event stream. -/
def gen_ast (chunks : List Chunk) : Except Err (List GenEvent) :=
  gen_ast_go chunks []

/-! ## The IR assembler (`compile_ast`, cursor machine)

The source builds the tree by mutation: `cursor` is a stack of
references to statement lists inside the tree, `cursor[-1]` the current
insertion point.  The pure image is a zipper: the root statement list
plus a stack of frames, each frame holding the block statement whose
slot (`body` or `orelse`) the cursor points into and the statements
accumulated there so far.  Invariant maintained by construction: a
frame's node is the last element of its parent's accumulated list (the
stale copy the mutation-based original updates in place). -/

/-- One open cursor level. -/
structure Frame where
  node : PyStmt
  inOrelse : Bool
  acc : List PyStmt

/-- The cursor-machine state: the root statement list, the open frames
(innermost first), and the current `ASCEND_COUNT`. -/
structure CState where
  root : List PyStmt
  frames : List Frame
  ascendCount : Nat

/-- Reads a block statement's `body` (`inOrelse = false`) or `orelse`
slot; statements without such a slot read as empty (only `if` blocks
arise in the modelled fragment). -/
def getSlot (s : PyStmt) (inOrelse : Bool) : List PyStmt :=
  match s with
  | .ifS _ b e => if inOrelse then e else b
  | _ => []

/-- Writes a block statement's `body` or `orelse` slot. -/
def setSlot (s : PyStmt) (inOrelse : Bool) (l : List PyStmt) : PyStmt :=
  match s with
  | .ifS t b e => if inOrelse then .ifS t b l else .ifS t l e
  | other => other

/-- Replaces the last element of a list (the pure image of mutating the
object that is the list's last element). -/
def replaceLast (l : List PyStmt) (s : PyStmt) : List PyStmt :=
  l.dropLast ++ [s]

/-- `cursor[-1].append(expr)`. -/
def cAppend (st : CState) (s : PyStmt) : CState :=
  match st.frames with
  | [] => { st with root := st.root ++ [s] }
  | f :: rest => { st with frames := { f with acc := f.acc ++ [s] } :: rest }

/-- Materialises a frame back into its node: the accumulated statements
become the node's current slot, with `_yieldall` applied first when the
pop comes from an `Ascend` (the source runs `_yieldall(cursor[-1])`
before popping). -/
def commitFrame (f : Frame) (withYieldall : Bool) : PyStmt :=
  setSlot f.node f.inOrelse (if withYieldall then _yieldall f.acc else f.acc)

/-- Pops one cursor level: commit the top frame and refresh the stale
copy of its node at the end of the parent's accumulated list. -/
def popFrame (st : CState) (withYieldall : Bool) : Except Err CState :=
  match st.frames with
  | [] => .error .indexError
  | f :: rest =>
    let s := commitFrame f withYieldall
    match rest with
    | [] =>
      if st.root.isEmpty then .error .indexError
      else .ok { st with root := replaceLast st.root s, frames := [] }
    | g :: gs =>
      if g.acc.isEmpty then .error .indexError
      else .ok { st with frames := { g with acc := replaceLast g.acc s } :: gs }

/-- The `Ascend` loop: `for _ in range(ASCEND_COUNT): _yieldall(...);
pop`, then reset the count to 1.  The `len(cursor) < 2` guard is
checked by the caller before the loop, as in the source. -/
def ascendLoop : Nat → CState → Except Err CState
  | 0, st => .ok { st with ascendCount := 1 }
  | n + 1, st =>
    match popFrame st true with
    | .error e => .error e
    | .ok st' => ascendLoop n st'

/-- `Descend`: `cursor.append(expr.body); del cursor[-1][0]` — push a
frame into the freshly inserted block's body with its sentinel `pass`
deleted. -/
def descendStep (st : CState) (node? : Option PyStmt) : Except Err CState :=
  match node? with
  | none => .error .attributeError
  | some node =>
    match getSlot node false with
    | [] => .error .indexError
    | _ :: bodyTail => .ok { st with frames := ⟨node, false, bodyTail⟩ :: st.frames }

/-- `ElseDescend`: `cursor[-1] = cursor[-2][-1].orelse` — the top frame
is committed (without `_yieldall`; the source's mutations are already
visible in the tree) and the cursor re-targets the `orelse` slot of the
parent's last statement. -/
def elseDescendStep (st : CState) : Except Err CState :=
  match st.frames with
  | [] => .error .indexError
  | f :: rest =>
    let n := commitFrame f false
    let newAcc := getSlot n true
    match rest with
    | [] =>
      if st.root.isEmpty then .error .indexError
      else .ok { st with root := replaceLast st.root n, frames := [⟨n, true, newAcc⟩] }
    | g :: gs =>
      if g.acc.isEmpty then .error .indexError
      else .ok { st with frames := ⟨n, true, newAcc⟩ :: { g with acc := replaceLast g.acc n } :: gs }

/-- The body of `compile_ast`'s event loop: insert the node (if any),
then move the cursor according to the motion. -/
def cursorStep (st : CState) : GenEvent → Except Err CState
  | .bumpAscend => .ok { st with ascendCount := st.ascendCount + 1 }
  | .emit node? motion =>
    let st := match node? with
              | some s => cAppend st s
              | none => st
    match motion with
    | .noMotion => .ok st
    | .ascend =>
      if st.frames.isEmpty then
        .error (.formatError (tl "Too many closings tags"))
      else ascendLoop st.ascendCount st
    | .descend => descendStep st node?
    | .elseDescend => elseDescendStep st

/-- Runs the whole event stream through the cursor machine. -/
def runCursorEvents : List GenEvent → CState → Except Err CState
  | [], st => .ok st
  | ev :: rest, st =>
    match cursorStep st ev with
    | .error e => .error e
    | .ok st' => runCursorEvents rest st'

/-- After the loop the source simply returns the tree; open frames
correspond to mutations already materialised in the tree, so the pure
model commits them (without `_yieldall`, which only runs on `Ascend`). -/
def commitRemaining : Nat → CState → Except Err (List PyStmt)
  | 0, _ => .error .fuelOut
  | fuel + 1, st =>
    match st.frames with
    | [] => .ok st.root
    | _ :: _ =>
      match popFrame st false with
      | .error e => .error e
      | .ok st' => commitRemaining fuel st'

/-- The untransformed body assembly of `compile_ast`: lex, parse, run
the cursor machine, and read back the `execute` body. -/
def compileBody (text : List Char) : Except Err (List PyStmt) :=
  match gen_chunks text with
  | .error e => .error e
  | .ok chunks =>
    match gen_ast chunks with
    | .error e => .error e
    | .ok events =>
      match runCursorEvents events ⟨[], [], 1⟩ with
      | .error e => .error e
      | .ok st => commitRemaining (st.frames.length + 1) st

/-! ## The rewriter (`Transformer`)  -/

/-- Rewriter-local scope sets (`seenStore`, `seenFuncs`); membership is
all that is read, so the dictionaries are modelled as name lists. -/
structure TState where
  seenStore : List (List Char)
  seenFuncs : List (List Char)

/-- The names preloaded into `seenStore` by `Transformer.__init__`. -/
def initialSeenStore : List (List Char) :=
  [tl "args", tl "ResourceModified", tl "None", tl "True", tl "False"]

/-- Modelled from the host: the names of `builtins.__dict__` in the
host Python 3 interpreter (an external collaborator; only membership
queries are made against it). -/
def pythonBuiltins : List (List Char) :=
  [tl "abs", tl "all", tl "any", tl "ascii", tl "bin", tl "bool",
   tl "bytearray", tl "bytes", tl "callable", tl "chr", tl "classmethod",
   tl "compile", tl "complex", tl "delattr", tl "dict", tl "dir",
   tl "divmod", tl "enumerate", tl "eval", tl "exec", tl "filter",
   tl "float", tl "format", tl "frozenset", tl "getattr", tl "globals",
   tl "hasattr", tl "hash", tl "help", tl "hex", tl "id", tl "input",
   tl "int", tl "isinstance", tl "issubclass", tl "iter", tl "len",
   tl "list", tl "locals", tl "map", tl "max", tl "memoryview", tl "min",
   tl "next", tl "object", tl "oct", tl "open", tl "ord", tl "pow",
   tl "print", tl "property", tl "range", tl "repr", tl "reversed",
   tl "round", tl "set", tl "setattr", tl "slice", tl "sorted",
   tl "staticmethod", tl "str", tl "sum", tl "super", tl "tuple",
   tl "type", tl "vars", tl "zip", tl "__import__", tl "__build_class__",
   tl "__debug__", tl "__doc__", tl "__name__", tl "__package__",
   tl "ArithmeticError", tl "AssertionError", tl "AttributeError",
   tl "BaseException", tl "BufferError", tl "BytesWarning",
   tl "DeprecationWarning", tl "EOFError", tl "Ellipsis",
   tl "EnvironmentError", tl "Exception", tl "False",
   tl "FloatingPointError", tl "FutureWarning", tl "GeneratorExit",
   tl "IOError", tl "ImportError", tl "ImportWarning",
   tl "IndentationError", tl "IndexError", tl "KeyError",
   tl "KeyboardInterrupt", tl "LookupError", tl "MemoryError",
   tl "NameError", tl "None", tl "NotImplemented",
   tl "NotImplementedError", tl "OSError", tl "OverflowError",
   tl "PendingDeprecationWarning", tl "ReferenceError", tl "RuntimeError",
   tl "RuntimeWarning", tl "StopIteration", tl "SyntaxError",
   tl "SyntaxWarning", tl "SystemError", tl "SystemExit", tl "TabError",
   tl "True", tl "TypeError", tl "UnboundLocalError",
   tl "UnicodeDecodeError", tl "UnicodeEncodeError", tl "UnicodeError",
   tl "UnicodeTranslateError", tl "UnicodeWarning", tl "UserWarning",
   tl "ValueError", tl "Warning", tl "ZeroDivisionError",
   tl "copyright", tl "credits", tl "license", tl "quit", tl "exit"]

/-- `Transformer.visit_Name`: `Store`-context names are recorded in
`seenStore`; the reserved name `include` passes through; a `Load` of a
name neither stored, nor a host builtin, nor a template function is
replaced by `args[<name>]`. -/
def visit_Name (st : TState) (id : List Char) (ctx : Ctx) : TState × PyExpr :=
  match ctx with
  | .store => ({ st with seenStore := st.seenStore ++ [id] }, .name id ctx)
  | .load =>
    if id = tl "include" then (st, .name id ctx)
    else if !(st.seenStore.contains id) then
      if !(pythonBuiltins.contains id) && !(st.seenFuncs.contains id) then
        (st, .subscript (.name (tl "args") .load) (.str id) ctx)
      else (st, .name id ctx)
    else (st, .name id ctx)

/-- `strip_whitespace(s)`: once a newline is seen, drop subsequent
newline/tab/space characters until the next other character. -/
def strip_whitespace_go : List Char → Bool → List Char
  | [], _ => []
  | c :: rest, remove =>
    let remove := if c = '\n' then true else remove
    let remove := if remove && !(c = '\n' || c = '\t' || c = ' ') then false else remove
    (if !remove then [c] else []) ++ strip_whitespace_go rest remove

/-- `strip_whitespace` entry point. -/
def strip_whitespace (s : List Char) : List Char :=
  strip_whitespace_go s false

mutual

/-- Depth-first traversal of an expression, dispatching `visit_Name`
and visiting children in the host AST's field order; fuel bounds the
recursion depth (the driver supplies enough for any modelled tree). -/
def visitExprT : Nat → TState → PyExpr → Except Err (TState × PyExpr)
  | 0, _, _ => .error .fuelOut
  | _ + 1, st, .str s => .ok (st, .str s)
  | _ + 1, st, .name id ctx => .ok (visit_Name st id ctx)
  | fuel + 1, st, .subscript v i ctx => do
    let (st, v') ← visitExprT fuel st v
    let (st, i') ← visitExprT fuel st i
    .ok (st, .subscript v' i' ctx)
  | fuel + 1, st, .binopMod l r => do
    let (st, l') ← visitExprT fuel st l
    let (st, r') ← visitExprT fuel st r
    .ok (st, .binopMod l' r')
  | fuel + 1, st, .yieldE v => do
    let (st, v') ← visitExprT fuel st v
    .ok (st, .yieldE v')
  | fuel + 1, st, .call f args => do
    let (st, f') ← visitExprT fuel st f
    let (st, args') ← visitExprListT fuel st args
    .ok (st, .call f' args')
  | fuel + 1, st, .attributeE v a => do
    let (st, v') ← visitExprT fuel st v
    .ok (st, .attributeE v' a)

/-- Traversal of an expression list (call arguments). -/
def visitExprListT : Nat → TState → List PyExpr → Except Err (TState × List PyExpr)
  | 0, _, _ => .error .fuelOut
  | _ + 1, st, [] => .ok (st, [])
  | fuel + 1, st, e :: rest => do
    let (st, e') ← visitExprT fuel st e
    let (st, rest') ← visitExprListT fuel st rest
    .ok (st, e' :: rest')

end

mutual

/-- `Transformer` dispatch for one statement, returning the replacement
statement list (`visit_Expr` may drop a statement or, for `include`,
splice several).  The `include` expansion itself reads the filesystem
and is outside the modelled fragment: templates settled in this file
never contain `include`, and the model reports it as unmodeled after
the source's own arity check. -/
def visitStmtT : Nat → Bool → TState → PyStmt → Except Err (TState × List PyStmt)
  | 0, _, _, _ => .error .fuelOut
  | _ + 1, _, st, .passS => .ok (st, [.passS])
  | fuel + 1, stripW, st, .ifS t b e => do
    let (st, t') ← visitExprT fuel st t
    let (st, b') ← visitStmtsT fuel stripW st b
    let (st, e') ← visitStmtsT fuel stripW st e
    .ok (st, [.ifS t' b' e'])
  | _ + 1, _, st, .importS names =>
    .ok ({ st with seenStore := st.seenStore ++ names }, [.importS names])
  | fuel + 1, stripW, st, .exprS v =>
    match v with
    | .call (.name f _) cargs =>
      if f = tl "include" then
        if cargs.length < 1 then
          .error (.formatError (tl "include requires at least a filename as an argument."))
        else .error .unmodeledEval
      else do
        let (st, v') ← visitExprT fuel st v
        let _ := cargs
        .ok (st, [.exprS v'])
    | .yieldE (.str s) =>
      if stripW then
        let s' := strip_whitespace s
        if s'.isEmpty then .ok (st, [])
        else do
          let (st, v') ← visitExprT fuel st (.yieldE (.str s'))
          .ok (st, [.exprS v'])
      else do
        let (st, v') ← visitExprT fuel st v
        .ok (st, [.exprS v'])
    | .yieldE (.call (.name f fctx) cargs) =>
      if st.seenFuncs.contains f then do
        let joined := _call (.attributeE (.str []) (tl "join")) [.call (.name f fctx) cargs]
        let (st, v') ← visitExprT fuel st (.yieldE joined)
        .ok (st, [.exprS v'])
      else do
        let (st, v') ← visitExprT fuel st v
        .ok (st, [.exprS v'])
    | _ => do
      let (st, v') ← visitExprT fuel st v
      .ok (st, [.exprS v'])

/-- Traversal of a statement list, splicing each statement's
replacement list. -/
def visitStmtsT : Nat → Bool → TState → List PyStmt → Except Err (TState × List PyStmt)
  | 0, _, _, _ => .error .fuelOut
  | _ + 1, _, st, [] => .ok (st, [])
  | fuel + 1, stripW, st, s :: rest => do
    let (st, l1) ← visitStmtT fuel stripW st s
    let (st, l2) ← visitStmtsT fuel stripW st rest
    .ok (st, l1 ++ l2)

end

/-- Traversal fuel: far deeper than any template settled here. -/
def transformFuel : Nat := 1000

/-- The `Transformer.visit` run over the module: the visit reaches
`visit_FunctionDef` for `execute`, which records `execute` in
`seenFuncs` (its positional parameter list is empty), runs `_yieldall`
on the body, and generically visits the body statements. -/
def transformModule (stripW : Bool) (body : List PyStmt) : Except Err (List PyStmt) :=
  let st : TState := ⟨initialSeenStore, [tl "execute"]⟩
  let body := _yieldall body
  match visitStmtsT transformFuel stripW st body with
  | .error e => .error e
  | .ok (_, body') => .ok body'

/-- `compile_ast(text, stripWhitespace, ...)` with `transform=True`:
assemble the `execute` body, prepend `import os`, run the rewriter,
and insert the preamble (ending in `yield None`) after the import. -/
def compile_ast (text : List Char) (stripWhitespace : Bool) : Except Err (List PyStmt) :=
  match compileBody text with
  | .error e => .error e
  | .ok body =>
    let body := PyStmt.importS [tl "os"] :: body
    match transformModule stripWhitespace body with
    | .error e => .error e
    | .ok body2 =>
      let preamble := [PyStmt.exprS (.yieldE (.name (tl "None") .load))]
      .ok (body2.take 1 ++ preamble ++ body2.drop 1)

/-! ## Runtime values and the generated generator's evaluation

`exec(_code_cache[h], glob, loc)` defines the generator function
`execute`; calling it binds the keyword-argument dict to `args` and the
generated body yields a stream of values.  The evaluator below runs the
modelled statement fragment, collecting the yielded values in order. -/

/-- Runtime values of the modelled fragment. -/
inductive Value where
  | vStr (s : List Char)
  | vBool (b : Bool)
  | vNone
  | vDict (entries : List (List Char × Value))
  | vModule (name : List Char)
  | vResModified (path : List Char)

/-- Association-list lookup (Python dict read). -/
def dictGet : List (List Char × Value) → List Char → Option Value
  | [], _ => none
  | (k, v) :: rest, key => if k = key then some v else dictGet rest key

/-- `str.replace(pat, rep)`: left-to-right replacement of
non-overlapping occurrences.  The host treats an empty pattern
specially; no modelled call uses one. -/
def pyReplaceGo : Nat → List Char → List Char → List Char → List Char
  | 0, s, _, _ => s
  | _ + 1, [], _, _ => []
  | fuel + 1, c :: rest, pat, rep =>
    if pat.isPrefixOf (c :: rest) then
      rep ++ pyReplaceGo fuel ((c :: rest).drop pat.length) pat rep
    else
      c :: pyReplaceGo fuel rest pat rep

/-- `s.replace(pat, rep)` entry point. -/
def pyReplace (s pat rep : List Char) : List Char :=
  if pat.isEmpty then s else pyReplaceGo (s.length + 1) s pat rep

/-- `str(v)` on the modelled values. -/
def pyStr : Value → List Char
  | .vStr s => s
  | .vBool true => tl "True"
  | .vBool false => tl "False"
  | .vNone => tl "None"
  | .vDict _ => tl "{...}"
  | .vModule n => n
  | .vResModified p => p

/-- Modelled from the host: the `%` formatting operator on the `%s`
conversion, the only conversion the verified templates evaluate (other
conversions are reported as unmodeled). -/
def pyFormatMod (fmt : List Char) (v : Value) : Except Err Value :=
  if fmt = tl "%s" then .ok (.vStr (pyStr v))
  else .error .unmodeledEval

/-- Python truthiness on the modelled values. -/
def pyTruthy : Value → Bool
  | .vStr s => !s.isEmpty
  | .vBool b => b
  | .vNone => false
  | .vDict d => !d.isEmpty
  | .vModule _ => true
  | .vResModified _ => true

/-- The execution environment: the local scope (`loc` plus the bound
`args` dict). -/
structure Env where
  locals : List (List Char × Value)

/-- Expression evaluation of the generated fragment.  `None`, `True`
and `False` parse as `Name` nodes in the host version and evaluate to
their constants; other names read the local scope. -/
def evalExpr : Nat → Env → PyExpr → Except Err Value
  | 0, _, _ => .error .fuelOut
  | _ + 1, _, .str s => .ok (.vStr s)
  | _ + 1, env, .name id _ =>
    if id = tl "None" then .ok .vNone
    else if id = tl "True" then .ok (.vBool true)
    else if id = tl "False" then .ok (.vBool false)
    else
      match dictGet env.locals id with
      | some v => .ok v
      | none => .error (.nameErrorRaised id)
  | fuel + 1, env, .subscript v i _ => do
    let base ← evalExpr fuel env v
    let idx ← evalExpr fuel env i
    match base, idx with
    | .vDict d, .vStr k =>
      match dictGet d k with
      | some x => .ok x
      | none => .error (.keyError k)
    | _, _ => .error .unmodeledEval
  | fuel + 1, env, .binopMod l r => do
    let lv ← evalExpr fuel env l
    let rv ← evalExpr fuel env r
    match lv with
    | .vStr fmt => pyFormatMod fmt rv
    | _ => .error .unmodeledEval
  | fuel + 1, env, .call (.attributeE obj meth) cargs =>
    if meth = tl "replace" then do
      let base ← evalExpr fuel env obj
      match base, cargs with
      | .vStr s, [a, b] => do
        let av ← evalExpr fuel env a
        let bv ← evalExpr fuel env b
        match av, bv with
        | .vStr pat, .vStr rep => .ok (.vStr (pyReplace s pat rep))
        | _, _ => .error .unmodeledEval
      | _, _ => .error .unmodeledEval
    else .error .unmodeledEval
  | _ + 1, _, .call _ _ => .error .unmodeledEval
  | _ + 1, _, .attributeE _ _ => .error .unmodeledEval
  | _ + 1, _, .yieldE _ => .error .unmodeledEval

mutual

/-- Statement evaluation: returns the values yielded, in order, and the
updated environment. -/
def evalStmt : Nat → Env → PyStmt → Except Err (List Value × Env)
  | 0, _, _ => .error .fuelOut
  | _ + 1, env, .passS => .ok ([], env)
  | _ + 1, env, .importS names =>
    .ok ([], { env with locals := env.locals ++ names.map (fun n => (n, Value.vModule n)) })
  | fuel + 1, env, .exprS (.yieldE e) => do
    let v ← evalExpr fuel env e
    .ok ([v], env)
  | fuel + 1, env, .exprS e => do
    let _ ← evalExpr fuel env e
    .ok ([], env)
  | fuel + 1, env, .ifS t b o => do
    let tv ← evalExpr fuel env t
    if pyTruthy tv then evalStmtList fuel env b else evalStmtList fuel env o

/-- Statement-list evaluation. -/
def evalStmtList : Nat → Env → List PyStmt → Except Err (List Value × Env)
  | 0, _, _ => .error .fuelOut
  | _ + 1, env, [] => .ok ([], env)
  | fuel + 1, env, s :: rest => do
    let (vs1, env) ← evalStmt fuel env s
    let (vs2, env) ← evalStmtList fuel env rest
    .ok (vs1 ++ vs2, env)

end

/-! ## The execution driver (`template`)  -/

/-- Evaluation fuel for one generator run; far deeper than any template
settled here. -/
def evalFuel : Nat := 1000

/-- `loc['execute'](**kw)` then full drain: the value stream of the
compiled body, evaluated with the keyword arguments bound as the
`args` dict. -/
def runCode (code : List PyStmt) (kw : List (List Char × Value)) : Except Err (List Value) :=
  (evalStmtList evalFuel ⟨[(tl "args", .vDict kw)]⟩ code).map (·.1)

/-- Outcome of the first-yield handshake (`template`'s `for err in
gen:` loop over the primed generator). -/
inductive ExecDispatch where
  | exhausted
  | output (rest : List Value)
  | retrySkipCache
  | raiseExc

/-- The handshake itself: the first value pulled decides everything.
`None` releases the rest of the stream to the caller; a
`ResourceModified` instance discards the generator and retries with
`skipCache=True`; any other value raises; an exhausted generator falls
out of the loop (the source then returns `None`). -/
def executePhase : List Value → ExecDispatch
  | [] => .exhausted
  | .vNone :: rest => .output rest
  | .vResModified _ :: _ => .retrySkipCache
  | _ :: _ => .raiseExc

/-- `''.join(gen)` over the released stream: every item must be a
string. -/
def joinValues : List Value → Except Err (List Char)
  | [] => .ok []
  | .vStr s :: rest => (joinValues rest).map (s ++ ·)
  | _ :: _ => .error .typeError

/-- Modelled from the host: `str.__hash__`, an opaque deterministic
string hash.  Only the way `template` combines it with the mtime is
relevant to any claim, so an executable polynomial stand-in is used. -/
def subaHash (s : List Char) : Nat :=
  s.foldl (fun a c => a * 31 + c.toNat) 7

/-- The process-wide `_code_cache`, keyed by source identity. -/
abbrev CodeCache := List (Nat × List PyStmt)

/-- `_code_cache.get(h, None)`. -/
def cacheGet : CodeCache → Nat → Option (List PyStmt)
  | [], _ => none
  | (k, c) :: rest, h => if k = h then some c else cacheGet rest h

/-- `_code_cache[h] = code`. -/
def cachePut (cache : CodeCache) (h : Nat) (code : List PyStmt) : CodeCache :=
  (h, code) :: cache

/-- The result of one `template(...)` call: the joined output (or the
raised exception), the cache afterwards, and whether this call entered
the compile branch. -/
structure TRes where
  out : Except Err (List Char)
  cache : CodeCache
  compiled : Bool

/-- The shared execution phase of `template`: read the cached code,
run the generator, perform the first-yield handshake, and either
release the joined stream, raise, or retry via `retryK` (the recursive
`template(..., skipCache=True)` call of the source). -/
def templateExecPhase (cache : CodeCache) (h : Nat) (kw : List (List Char × Value))
    (compiledHere : Bool) (retryK : CodeCache → TRes) : TRes :=
  match cacheGet cache h with
  | none => ⟨.error .indexError, cache, compiledHere⟩
  | some code =>
    match runCode code kw with
    | .error e => ⟨.error e, cache, compiledHere⟩
    | .ok vals =>
      match executePhase vals with
      | .exhausted => ⟨.error .generatorEmpty, cache, compiledHere⟩
      | .output rest => ⟨joinValues rest, cache, compiledHere⟩
      | .raiseExc => ⟨.error .firstValueExc, cache, compiledHere⟩
      | .retrySkipCache => retryK cache

/-- `template(text=..., ...)`: the inline-text branch.  The source
identity is `hash(text)`; the compile step runs when the cache misses
or `skipCache` is set; fuel bounds the `ResourceModified` retry
recursion. -/
def templateText : Nat → CodeCache → Bool → List Char → Bool → List (List Char × Value) → TRes
  | fuel, cache, skipCache, text, stripW, kw =>
    let h := subaHash text
    let needCompile := skipCache || (cacheGet cache h).isNone
    let compileStep : Except Err CodeCache :=
      if needCompile then
        match compile_ast text stripW with
        | .error e => .error e
        | .ok code => .ok (cachePut cache h code)
      else .ok cache
    match compileStep with
    | .error e => ⟨.error e, cache, needCompile⟩
    | .ok cache1 =>
      templateExecPhase cache1 h kw needCompile (fun c =>
        match fuel with
        | 0 => ⟨.error .fuelOut, c, needCompile⟩
        | fuel' + 1 => templateText fuel' c true text stripW kw)

/-- `render(text=...)`: an inline-text `template` call against an empty
cache, giving only the joined output. -/
def render (text : List Char) (kw : List (List Char × Value)) : Except Err (List Char) :=
  (templateText 2 [] false text false kw).out


/-! ## File-backed templates and the `template` entry point -/

/-- `str.split(sep)` (single-character separator, empties kept). -/
def splitSepGo (sep : Char) : List Char → List Char → List (List Char)
  | [], acc => [acc.reverse]
  | c :: rest, acc =>
    if c = sep then acc.reverse :: splitSepGo sep rest []
    else splitSepGo sep rest (c :: acc)

/-- `root.split(os.path.sep)` with `/` as the path separator. -/
def splitSep (sep : Char) (s : List Char) : List (List Char) :=
  splitSepGo sep s []

/-- `os.path.sep.join(parts)`. -/
def joinSep (parts : List (List Char)) : List Char :=
  List.intercalate (tl "/") parts

/-- The filesystem visible to a run: full path to `(mtime, content)`.
Modelled from the host: `os.path.getmtime` and `open(...).read()` are
lookups into this map; a missing path is the host's `OSError`. -/
structure World where
  files : List (List Char × (Nat × List Char))

/-- Filesystem lookup. -/
def worldGet : List (List Char × (Nat × List Char)) → List Char → Option (Nat × List Char)
  | [], _ => none
  | (p, e) :: rest, path => if p = path then some e else worldGet rest path

/-- The module-level names of `suba.py` — its own definitions, its
imports, and the names brought in by `from ast import *` — modelled
from the source.  `template`'s error branch raises `ArgumentError`, a
name resolvable neither here nor among the host builtins. -/
def subaModuleGlobals : List (List Char) :=
  [tl "re", tl "io", tl "os", tl "ast", tl "builtins", tl "copy", tl "time",
   tl "__all__", tl "type_re", tl "FormatError", tl "ResourceModified",
   tl "CLOSE_MARK", tl "OPEN_MARK", tl "OPEN_PAREN", tl "CLOSE_PAREN",
   tl "ASCEND_COUNT", tl "NoMotion", tl "Ascend", tl "Descend",
   tl "ElseDescend", tl "template", tl "compile_ast", tl "gen_chunks",
   tl "linecount", tl "gen_ast", tl "gen_bytes", tl "match_forward",
   tl "Transformer", tl "strip_whitespace", tl "_code_cache",
   tl "include_ast", tl "_call", tl "_replace", tl "_quote",
   tl "_multiline", tl "_compareMtime", tl "_checkMtimeAndYield",
   tl "_yieldall", tl "Node", tl "TextNode", tl "_synth_cache", tl "synth",
   tl "AST", tl "Add", tl "And", tl "Assert", tl "Assign", tl "Attribute",
   tl "AugAssign", tl "AugLoad", tl "AugStore", tl "BinOp", tl "BitAnd",
   tl "BitOr", tl "BitXor", tl "BoolOp", tl "Break", tl "Bytes",
   tl "Call", tl "ClassDef", tl "Compare", tl "Continue", tl "Del",
   tl "Delete", tl "Dict", tl "DictComp", tl "Div", tl "Ellipsis",
   tl "Eq", tl "ExceptHandler", tl "Expr", tl "Expression", tl "ExtSlice",
   tl "FloorDiv", tl "For", tl "FunctionDef", tl "GeneratorExp",
   tl "Global", tl "Gt", tl "GtE", tl "If", tl "IfExp", tl "Import",
   tl "ImportFrom", tl "In", tl "Index", tl "Interactive", tl "Invert",
   tl "Is", tl "IsNot", tl "LShift", tl "Lambda", tl "List",
   tl "ListComp", tl "Load", tl "Lt", tl "LtE", tl "Mod", tl "Module",
   tl "Mult", tl "Name", tl "Nonlocal", tl "Not", tl "NotEq", tl "NotIn",
   tl "Num", tl "Or", tl "Param", tl "Pass", tl "Pow", tl "RShift",
   tl "Raise", tl "Return", tl "Set", tl "SetComp", tl "Slice",
   tl "Starred", tl "Store", tl "Str", tl "Sub", tl "Subscript",
   tl "Suite", tl "TryExcept", tl "TryFinally", tl "Tuple", tl "UAdd",
   tl "USub", tl "UnaryOp", tl "While", tl "With", tl "Yield",
   tl "alias", tl "arg", tl "arguments", tl "boolop", tl "cmpop",
   tl "comprehension", tl "excepthandler", tl "expr", tl "expr_context",
   tl "keyword", tl "mod", tl "operator", tl "slice", tl "stmt",
   tl "unaryop", tl "NodeVisitor", tl "NodeTransformer", tl "parse",
   tl "literal_eval", tl "dump", tl "copy_location",
   tl "fix_missing_locations", tl "increment_lineno", tl "iter_fields",
   tl "iter_child_nodes", tl "get_docstring", tl "walk"]

/-- Evaluating `raise <Name>(...)` when `<Name>` resolves neither in
the module globals nor in builtins raises `NameError` instead of the
named exception. -/
def raiseName (n : List Char) : Err :=
  if subaModuleGlobals.contains n || pythonBuiltins.contains n then .namedExc n
  else .nameErrorRaised n

/-- `template(filename=..., root=...)`: the file-backed branch.  The
source identity is `hash(full_name) + mtime(full_name)` over the
`..`-sanitised path; the file is read (via the unsanitised join, as in
the source) and compiled on a cache miss or `skipCache`.  On a
`ResourceModified` retry the source passes both `text` (assigned
during compile) and `filename` back to `template`, which lands in the
`ArgumentError` branch whenever this call had compiled. -/
def templateFile (w : World) :
    Nat → CodeCache → Bool → List Char → List Char → Bool → List (List Char × Value) → TRes
  | fuel, cache, skipCache, filename, root, stripW, kw =>
    let path := splitSep '/' root
    let full_name :=
      joinSep (path ++ (splitSep '/' filename).filter (fun f => !(f = tl "..") && !f.isEmpty))
    match worldGet w.files full_name with
    | none => ⟨.error .ioError, cache, false⟩
    | some (m, _) =>
      let h := subaHash full_name + m
      let needCompile := skipCache || (cacheGet cache h).isNone
      let compileStep : Except Err CodeCache :=
        if needCompile then
          match worldGet w.files (joinSep (path ++ [filename])) with
          | none => .error .ioError
          | some (_, content) =>
            match compile_ast content stripW with
            | .error e => .error e
            | .ok code => .ok (cachePut cache h code)
        else .ok cache
      match compileStep with
      | .error e => ⟨.error e, cache, needCompile⟩
      | .ok cache1 =>
        templateExecPhase cache1 h kw needCompile (fun c =>
          if needCompile then ⟨.error (raiseName (tl "ArgumentError")), c, needCompile⟩
          else
            match fuel with
            | 0 => ⟨.error .fuelOut, c, needCompile⟩
            | fuel' + 1 => templateFile w fuel' c true filename root stripW kw)

/-- `template(...)`: argument dispatch.  Exactly one of `text` and
`filename` selects a branch; otherwise the source executes
`raise ArgumentError(...)`, and since `ArgumentError` is defined
nowhere the lookup itself raises, before any parsing, compilation or
cache mutation. -/
def templateCall (w : World) (fuel : Nat) (cache : CodeCache) (skipCache : Bool)
    (text? filename? : Option (List Char)) (root : List Char) (stripW : Bool)
    (kw : List (List Char × Value)) : TRes :=
  match text?, filename? with
  | none, some f => templateFile w fuel cache skipCache f root stripW kw
  | some t, none => templateText fuel cache skipCache t stripW kw
  | _, _ => ⟨.error (raiseName (tl "ArgumentError")), cache, false⟩

/-! ## The CSS-like element synthesizer (`synth`)

The source builds a mutable tree of `Node`/`TextNode` objects by
following a `parent` pointer; the pure image is again a zipper: the
completed root nodes plus a stack of open ancestors (innermost first),
where an open node's deferred attachment to its parent happens when it
is popped — the source performs the attachment eagerly and mutates the
children afterwards, which yields the same tree. -/

/-- A serialisable DOM value (`Node.__str__` / `TextNode.__str__`). -/
inductive SDom where
  | node (tagName id className : List Char)
      (attrs : List (List Char × List Char)) (children : List SDom)
  | textNode (t : List Char)

/-- An open (still-growing) element on the parent chain. -/
structure OpenNode where
  tagName : List Char
  id : List Char
  className : List Char
  attrs : List (List Char × List Char)
  children : List SDom

/-- The six `StringIO` buffers a character can be routed to. -/
inductive TargetB where
  | tagname
  | idT
  | cls
  | attr
  | val
  | text
  deriving Repr, DecidableEq

/-- The single-quote character (written by code point to keep the
source free of quote-escape literals). -/
def squote : Char := Char.ofNat 39

/-- Python dict assignment on an insertion-ordered association list. -/
def dictSet : List (List Char × List Char) → List Char → List Char → List (List Char × List Char)
  | [], k, v => [(k, v)]
  | (k0, v0) :: rest, k, v =>
    if k0 = k then (k, v) :: rest else (k0, v0) :: dictSet rest k v

/-- The `synth` machine state: buffers, quote mode, pending attributes,
the open-ancestor stack (`parent` chain) and the completed roots
(`ret`). -/
structure SynthSt where
  bTag : List Char
  bId : List Char
  bCls : List Char
  bAttr : List Char
  bVal : List Char
  bText : List Char
  qmode : Option Char
  attrs : List (List Char × List Char)
  stack : List OpenNode
  roots : List SDom
  target : TargetB

/-- Materialises an open node into a DOM value. -/
def closeOpen (f : OpenNode) : SDom :=
  .node f.tagName f.id f.className f.attrs f.children

/-- `parent = parent.parentNode`: pop one open ancestor, attaching it
to the next ancestor's children (or to the roots). -/
def popOpen : List OpenNode × List SDom → List OpenNode × List SDom
  | ([], roots) => ([], roots)
  | (f :: rest, roots) =>
    let d := closeOpen f
    match rest with
    | [] => ([], roots ++ [d])
    | g :: gs => ({ g with children := g.children ++ [d] } :: gs, roots)

/-- `parent.appendChild(n)` or `ret.append(n)`. -/
def appendDom (st : SynthSt) (d : SDom) : SynthSt :=
  match st.stack with
  | [] => { st with roots := st.roots ++ [d] }
  | f :: rest => { st with stack := { f with children := f.children ++ [d] } :: rest }

/-- The parent-chain collapse loop; fuel is the chain length, supplied
in full by `collapseStack`. -/
def collapseStackGo : Nat → List OpenNode → List SDom → List SDom
  | 0, _, roots => roots
  | _ + 1, [], roots => roots
  | fuel + 1, f :: rest, roots =>
    let d := closeOpen f
    match rest with
    | [] => roots ++ [d]
    | g :: gs => collapseStackGo fuel ({ g with children := g.children ++ [d] } :: gs) roots

/-- Collapses the whole parent chain into the roots (`parent = None`). -/
def collapseStack (stack : List OpenNode) (roots : List SDom) : List SDom :=
  collapseStackGo (stack.length + 1) stack roots

/-- Clears the six buffers and the pending attributes after a node is
emitted. -/
def clearBuffers (st : SynthSt) : SynthSt :=
  { st with bTag := [], bId := [], bCls := [], bAttr := [], bVal := [],
            bText := [], attrs := [], target := .tagname }

/-- The node constructed from the current buffers. -/
def bufferNode (st : SynthSt) : OpenNode :=
  ⟨st.bTag, st.bId, st.bCls, st.attrs, []⟩

/-- One character step of the `synth` state machine, mirroring the
source's guard chain in order. -/
def synthStep (st : SynthSt) (c : Char) : SynthSt :=
  if c = '+' && st.target = .tagname then
    match popOpen (st.stack, st.roots) with
    | (stack', roots') => { st with stack := stack', roots := roots' }
  else if c = '#' && (st.target = .tagname || st.target = .cls || st.target = .attr) then
    { st with target := .idT }
  else if c = '.' && (st.target = .tagname || st.target = .idT || st.target = .attr) then
    { st with target := .cls }
  else if c = '[' && (st.target = .tagname || st.target = .idT || st.target = .cls || st.target = .attr) then
    { st with target := .attr }
  else if c = '=' && st.target = .attr then
    { st with target := .val }
  else if c = ']' && (st.target = .attr || st.target = .val) then
    { st with attrs := dictSet st.attrs st.bAttr st.bVal, bAttr := [], bVal := [],
              target := .tagname }
  else if (c = '"' || c = squote) && st.target = .tagname then
    { st with target := .text, qmode := some c }
  else if some c = st.qmode && st.target = .text then
    let st' := appendDom st (.textNode st.bText)
    { st' with target := .tagname, bText := [], qmode := none }
  else if (c = ' ' || c = ',') && !(st.target = .val || st.target = .text)
      && !st.bTag.isEmpty then
    let n := bufferNode st
    if c = ',' then
      let st' := appendDom st (closeOpen n)
      let roots' := collapseStack st'.stack st'.roots
      clearBuffers { st' with stack := [], roots := roots' }
    else
      clearBuffers { st with stack := n :: st.stack }
  else if st.target = .tagname then
    if c = ' ' then st else { st with bTag := st.bTag ++ [c] }
  else
    match st.target with
    | .idT => { st with bId := st.bId ++ [c] }
    | .cls => { st with bCls := st.bCls ++ [c] }
    | .attr => { st with bAttr := st.bAttr ++ [c] }
    | .val => { st with bVal := st.bVal ++ [c] }
    | .text => { st with bText := st.bText ++ [c] }
    | .tagname => st

/-- The end-of-input flushes: a pending tagname becomes a final node, a
pending text run becomes a final text node, and the parent chain
collapses into the roots. -/
def synthFinish (st : SynthSt) : List SDom :=
  let st := if !st.bTag.isEmpty then appendDom st (closeOpen (bufferNode st)) else st
  let st := if !st.bText.isEmpty then appendDom st (.textNode st.bText) else st
  collapseStack st.stack st.roots

/-- `' %s="%s"' % (k, v)` joined over the attribute dict. -/
def strAttrs (l : List (List Char × List Char)) : List Char :=
  (l.map (fun p => ' ' :: (p.1 ++ '=' :: '"' :: p.2 ++ [ '"' ]))).flatten

/-- `Node.__str__` / `TextNode.__str__`: serialisation of a DOM value;
the `id` and `class` fragments appear only when truthy (non-empty).
Fuel bounds the tree depth; `synth` supplies enough for any input. -/
def strSDomGo : Nat → SDom → List Char
  | 0, _ => []
  | _ + 1, .textNode t => t
  | fuel + 1, .node tag idv cls attrs children =>
    '<' :: tag
      ++ (if idv.isEmpty then [] else ' ' :: 'i' :: 'd' :: '=' :: '"' :: idv ++ [ '"' ])
      ++ (if cls.isEmpty then [] else tl " class=\"" ++ cls ++ [ '"' ])
      ++ strAttrs attrs
      ++ '>' :: (children.map (strSDomGo fuel)).flatten
      ++ '<' :: '/' :: tag ++ [ '>' ]

/-- The result of a `synth` call: the early cache-hit return hands back
the stored node list itself; otherwise a single serialised string (one
root) or a list of serialised strings. -/
inductive SynthOut where
  | cachedNodes (ns : List SDom)
  | strOne (s : List Char)
  | strMany (ss : List (List Char))

/-- The process-wide `_synth_cache`. -/
abbrev SynthCache := List (List Char × List SDom)

/-- `_synth_cache.get(expr, [])`. -/
def synthCacheGet : SynthCache → List Char → Option (List SDom)
  | [], _ => none
  | (k, v) :: rest, key => if k = key then some v else synthCacheGet rest key

/-- `synth(expr)` with the process-wide cache passed explicitly: the
cache is consulted first (a non-empty stored list is returned as-is);
otherwise the machine parses the expression.  No branch writes to the
cache — the returned cache is always the argument — so results are
recomputed on every call. -/
def synth (cache : SynthCache) (expr : List Char) : SynthOut × SynthCache :=
  let ret0 := (synthCacheGet cache expr).getD []
  if ret0.length > 0 then (.cachedNodes ret0, cache)
  else
    let st0 : SynthSt := ⟨[], [], [], [], [], [], none, [], [], ret0, .tagname⟩
    let ret := synthFinish (expr.foldl synthStep st0)
    match ret with
    | [d] => (.strOne (strSDomGo (expr.length + 1) d), cache)
    | ds => (.strMany (ds.map (strSDomGo (expr.length + 1))), cache)

/-! ## Clean runtime values

`ResourceModified` markers enter a value stream only from the include
preamble (outside the modelled fragment) or from the caller's own
argument values; the evaluator itself never constructs one.  A `Clean`
value is one containing no `ResourceModified` marker; rendering with
clean arguments can therefore never take the handshake's retry
branch. -/

/-- A runtime value free of `ResourceModified` markers. -/
inductive CleanVal : Value → Prop where
  | str (s : List Char) : CleanVal (.vStr s)
  | bool (b : Bool) : CleanVal (.vBool b)
  | none : CleanVal .vNone
  | module (n : List Char) : CleanVal (.vModule n)
  | dict (entries : List (List Char × Value))
      (h : ∀ kv ∈ entries, CleanVal kv.2) : CleanVal (.vDict entries)

/-- An argument map whose values are all clean. -/
def CleanArgs (kw : List (List Char × Value)) : Prop :=
  ∀ kv ∈ kw, CleanVal kv.2

/-- An environment whose locals are all clean. -/
def EnvClean (env : Env) : Prop :=
  ∀ kv ∈ env.locals, CleanVal kv.2


/-! ## Claim theorems -/

/-- The lexer agrees with the source's own doctest for
`gen_chunks("abc%(123)def%g")`. -/
theorem gen_chunks_doctest : gen_chunks (tl "abc%(123)def%g") =
    .ok [(tl "abc", none), (tl "(123)", some (tl "d")), (tl "ef", none),
         (tl "%", none), (tl "g", none)] := by decide

/-- The adapter fragment parses a block header and a bare name the way
`ast.parse` does. -/
theorem pyParse_fragment_examples :
    pyParse (tl "if foo: pass") = .ok [.ifS (.name (tl "foo") .load) [.passS] []]
    ∧ pyParse (tl "foo") = .ok [.exprS (.name (tl "foo") .load)] := ⟨rfl, rfl⟩

/-- A directive-free template renders as itself (spec scenario P1). -/
theorem plain_text_renders_itself : render (tl "hi") [] = .ok (tl "hi") := by decide

/-- C8: rendering `%(if foo:)A%(elif bar:)B%(else:)C%/` with
`foo=False, bar=True` produces exactly `B`: the `elif` performs an
`ElseDescend` followed by a `Descend` for a fresh `if` and bumps the
ascend count, so the single `%/` pops two cursor levels and the chain
behaves as if/elif/else.  The other two branch combinations are
included to pin the attachment down. -/
theorem elif_chain_renders_taken_branch :
    render (tl "%(if foo:)A%(elif bar:)B%(else:)C%/")
        [(tl "foo", .vBool false), (tl "bar", .vBool true)] = .ok (tl "B")
    ∧ render (tl "%(if foo:)A%(elif bar:)B%(else:)C%/")
        [(tl "foo", .vBool true), (tl "bar", .vBool false)] = .ok (tl "A")
    ∧ render (tl "%(if foo:)A%(elif bar:)B%(else:)C%/")
        [(tl "foo", .vBool false), (tl "bar", .vBool false)] = .ok (tl "C") := by
  refine ⟨?_, ?_, ?_⟩ <;> rfl

/-- C2 counterexample: the template `%(if x:)A` opens a block that is
never closed, yet `compile_ast` succeeds (and the template renders);
parsing succeeding therefore does not imply block balance, refuting
the if-and-only-if. -/
theorem unmatched_open_block_parses :
    (compile_ast (tl "%(if x:)A") false).isOk = true
    ∧ render (tl "%(if x:)A") [(tl "x", .vBool true)] = .ok (tl "A") := by
  exact ⟨rfl, rfl⟩

/-- Running an event stream in two stages: the cursor machine
processes an appended stream by processing the first part and feeding
the resulting state to the second. -/
theorem runCursorEvents_append (a b : List GenEvent) (st : CState) :
    runCursorEvents (a ++ b) st
      = match runCursorEvents a st with
        | .ok st' => runCursorEvents b st'
        | .error e => .error e := by
  induction a generalizing st with
  | nil => simp [runCursorEvents]
  | cons ev a' ih =>
    simp only [List.cons_append, runCursorEvents]
    cases cursorStep st ev with
    | error e => rfl
    | ok st' => exact ih st'

/-- An `Ascend` motion arriving while the cursor stack holds no open
frame (`len(cursor) < 2` in the source) raises `FormatError`. -/
theorem cursorStep_ascend_at_root (st : CState) (node : Option PyStmt)
    (h : st.frames = []) :
    cursorStep st (.emit node .ascend)
      = .error (.formatError (tl "Too many closings tags")) := by
  cases node with
  | none => simp [cursorStep, h, List.isEmpty_nil]
  | some s => simp [cursorStep, cAppend, h, List.isEmpty_nil]

/-- A stray close marker fails universally: for every template whose
event stream reaches an `Ascend` (the parse of a `%/` close marker)
while no block is open, `compile_ast` fails with `FormatError`. -/
theorem stray_close_fails (text : List Char) (stripW : Bool)
    (chunks : List Chunk) (events : List GenEvent)
    (pre : List GenEvent) (node : Option PyStmt) (rest : List GenEvent) (st : CState)
    (h1 : gen_chunks text = .ok chunks)
    (h2 : gen_ast chunks = .ok events)
    (h3 : events = pre ++ .emit node .ascend :: rest)
    (h4 : runCursorEvents pre ⟨[], [], 1⟩ = .ok st)
    (h5 : st.frames = []) :
    compile_ast text stripW = .error (.formatError (tl "Too many closings tags")) := by
  have hbody : compileBody text = .error (.formatError (tl "Too many closings tags")) := by
    simp only [compileBody, h1, h2, h3]
    rw [runCursorEvents_append, h4]
    simp only [runCursorEvents, cursorStep_ascend_at_root st node h5]
  simp [compile_ast, hbody]

/-- C2 amended: whenever the parser processes a close marker (`%/`)
while no block is open — the cursor stack is at its root — parsing
fails with `FormatError`, for every template (instantiated at `A%/B`
and at a leading `%/`); but the converse direction of the claimed
equivalence fails: a template with an unmatched open block parses
successfully, the block simply extending to the end of the source. -/
theorem block_balance_one_direction :
    (∀ (text : List Char) (stripW : Bool) (chunks : List Chunk)
      (events pre : List GenEvent) (node : Option PyStmt) (rest : List GenEvent)
      (st : CState),
      gen_chunks text = .ok chunks → gen_ast chunks = .ok events →
      events = pre ++ .emit node .ascend :: rest →
      runCursorEvents pre ⟨[], [], 1⟩ = .ok st → st.frames = [] →
      compile_ast text stripW = .error (.formatError (tl "Too many closings tags")))
    ∧ render (tl "A%/B") [] = .error (.formatError (tl "Too many closings tags"))
    ∧ render (tl "%/") [] = .error (.formatError (tl "Too many closings tags"))
    ∧ (compile_ast (tl "%(if x:)A") false).isOk = true
    ∧ render (tl "%(if x:)A") [(tl "x", .vBool false)] = .ok [] := by
  refine ⟨?_, rfl, rfl, rfl, rfl⟩
  intro text stripW chunks events pre node rest st h1 h2 h3 h4 h5
  exact stray_close_fails text stripW chunks events pre node rest st h1 h2 h3 h4 h5

/-- Witness for the stray-close theorem at the template `A%/B`: its
event stream is literal `A`, the close marker's `Ascend`, literal `B`,
and after the first event the cursor has no open frame. -/
theorem block_balance_one_direction_witness :
    compile_ast (tl "A%/B") false
      = .error (.formatError (tl "Too many closings tags")) :=
  block_balance_one_direction.1 (tl "A%/B") false
    [(tl "A", none), ([ '/' ], none), (tl "B", none)]
    [.emit (some (.exprS (.yieldE (.str (tl "A"))))) .noMotion,
     .emit none .ascend,
     .emit (some (.exprS (.yieldE (.str (tl "B"))))) .noMotion]
    [.emit (some (.exprS (.yieldE (.str (tl "A"))))) .noMotion]
    none
    [.emit (some (.exprS (.yieldE (.str (tl "B"))))) .noMotion]
    ⟨[.exprS (.yieldE (.str (tl "A")))], [], 1⟩
    rfl rfl rfl rfl rfl

/-- C1 counterexample: `%%` does not render as a single `%`: each `%`
whose next byte is outside `{(, /}` independently emits a literal `%`,
so `a%%b` renders as `a%%b`, not as the claimed `a%b`. -/
theorem double_percent_not_collapsed :
    render (tl "a%%b") [] = .ok (tl "a%%b")
    ∧ render (tl "a%%b") [] ≠ .ok (tl "a%b") := by
  exact ⟨rfl, by decide⟩

/-- C7 counterexample: `%(s)m` with `s = "A\nB"` renders as `A`,
backslash, newline, `B` — the newline is replaced by a backslash
followed by a newline (a line continuation), not by the two characters
backslash-`n` that the claim states. -/
theorem multiline_spec_not_backslash_n :
    render (tl "%(s)m") [(tl "s", .vStr [ 'A', '\n', 'B' ])]
      = .ok [ 'A', '\\', '\n', 'B' ]
    ∧ render (tl "%(s)m") [(tl "s", .vStr [ 'A', '\n', 'B' ])]
      ≠ .ok [ 'A', '\\', 'n', 'B' ] := by
  exact ⟨rfl, by decide⟩

/-- C10: calling `template` with both `text` and `filename`, or with
neither, raises before any parsing, compilation or cache mutation; and
because the referenced name `ArgumentError` is defined neither in the
module globals nor in the host builtins, what is actually raised is a
`NameError`. -/
theorem template_arg_check_raises_name_error
    (w : World) (fuel : Nat) (cache : CodeCache) (sk : Bool) (root : List Char)
    (stripW : Bool) (kw : List (List Char × Value)) (t f : List Char) :
    templateCall w fuel cache sk (some t) (some f) root stripW kw
      = ⟨.error (.nameErrorRaised (tl "ArgumentError")), cache, false⟩
    ∧ templateCall w fuel cache sk none none root stripW kw
      = ⟨.error (.nameErrorRaised (tl "ArgumentError")), cache, false⟩ := by
  exact ⟨rfl, rfl⟩

/-- C6: `synth` never memoizes.  No execution path writes to
`_synth_cache` (the returned cache always equals the argument), so the
cache lookup misses on every call and the second identical call
re-parses the expression rather than returning a stored result: after
`synth("div#foo")` the cache is still empty and the lookup still
fails. -/
theorem synth_never_memoizes :
    (∀ (cache : SynthCache) (expr : List Char), (synth cache expr).2 = cache)
    ∧ (synth [] (tl "div#foo")).2 = []
    ∧ (synth [] (tl "div#foo")).1 = .strOne (tl "<div id=\"foo\"></div>")
    ∧ (synth ((synth [] (tl "div#foo")).2) (tl "div#foo")).1
        = .strOne (tl "<div id=\"foo\"></div>")
    ∧ synthCacheGet ((synth [] (tl "div#foo")).2) (tl "div#foo") = none := by
  refine ⟨?_, rfl, rfl, rfl, rfl⟩
  intro cache expr
  simp only [synth]
  split
  · rfl
  · split <;> rfl

/-- Lookup in a clean dict yields a clean value. -/
theorem dictGet_clean {d : List (List Char × Value)} {k : List Char} {v : Value}
    (hd : ∀ kv ∈ d, CleanVal kv.2) (h : dictGet d k = some v) : CleanVal v := by
  induction d with
  | nil => simp [dictGet] at h
  | cons kv rest ih =>
    simp only [dictGet] at h
    by_cases hk : kv.1 = k
    · rw [if_pos hk] at h
      cases h
      exact hd kv (List.mem_cons_self _ _)
    · rw [if_neg hk] at h
      exact ih (fun x hx => hd x (List.mem_cons_of_mem _ hx)) h

/-- The evaluator never constructs a `ResourceModified` marker: an
expression evaluated in a clean environment yields a clean value. -/
theorem evalExpr_clean : ∀ (fuel : Nat) (env : Env) (e : PyExpr) (v : Value),
    EnvClean env → evalExpr fuel env e = .ok v → CleanVal v := by
  intro fuel
  induction fuel with
  | zero => intro env e v _ h; simp [evalExpr] at h
  | succ fuel ih =>
    intro env e v henv h
    cases e with
    | str s =>
      simp only [evalExpr] at h
      cases h
      exact .str s
    | name id ctx =>
      simp only [evalExpr] at h
      split at h
      · cases h; exact .none
      · split at h
        · cases h; exact .bool true
        · split at h
          · cases h; exact .bool false
          · split at h
            next x hget =>
              cases h
              exact dictGet_clean henv hget
            next hget => cases h
    | subscript b i ctx =>
      simp only [evalExpr, bind, Except.bind] at h
      cases hb : evalExpr fuel env b with
      | error e' => rw [hb] at h; cases h
      | ok bv =>
        rw [hb] at h
        cases hi : evalExpr fuel env i with
        | error e' => rw [hi] at h; cases h
        | ok iv =>
          rw [hi] at h
          cases bv <;> cases iv <;> simp at h
          case vDict.vStr d k =>
            cases hg : dictGet d k with
            | none => rw [hg] at h; cases h
            | some x =>
              rw [hg] at h
              cases h
              have hbc := ih env b (.vDict d) henv hb
              cases hbc with
              | dict _ hentries => exact dictGet_clean hentries hg
    | binopMod l r =>
      simp only [evalExpr, bind, Except.bind] at h
      cases hl : evalExpr fuel env l with
      | error e' => rw [hl] at h; cases h
      | ok lv =>
        rw [hl] at h
        cases hr : evalExpr fuel env r with
        | error e' => rw [hr] at h; cases h
        | ok rv =>
          rw [hr] at h
          cases lv <;> simp at h
          case vStr fmt =>
            simp only [pyFormatMod] at h
            split at h
            · cases h; exact .str _
            · cases h
    | yieldE e' => simp [evalExpr] at h
    | attributeE b a => simp [evalExpr] at h
    | call f cargs =>
      cases f with
      | attributeE obj meth =>
        simp only [evalExpr] at h
        split at h
        · simp only [bind, Except.bind] at h
          cases ho : evalExpr fuel env obj with
          | error e' => rw [ho] at h; cases h
          | ok ov =>
            rw [ho] at h
            match ov, cargs with
            | .vStr s, [a, b] =>
              simp only [bind, Except.bind] at h
              cases ha : evalExpr fuel env a with
              | error e' => rw [ha] at h; cases h
              | ok av =>
                rw [ha] at h
                cases hb2 : evalExpr fuel env b with
                | error e' => rw [hb2] at h; cases h
                | ok bv2 =>
                  rw [hb2] at h
                  match av, bv2 with
                  | .vStr p, .vStr q =>
                    simp at h
                    cases h
                    exact .str _
                  | .vStr p, .vBool b' => simp at h
                  | .vStr p, .vNone => simp at h
                  | .vStr p, .vDict d => simp at h
                  | .vStr p, .vModule n => simp at h
                  | .vStr p, .vResModified q => simp at h
                  | .vBool b', _ => simp at h
                  | .vNone, _ => simp at h
                  | .vDict d, _ => simp at h
                  | .vModule n, _ => simp at h
                  | .vResModified p, _ => simp at h
            | .vStr s, [] => simp at h
            | .vStr s, [a] => simp at h
            | .vStr s, a :: b :: c :: rest => simp at h
            | .vBool b', _ => simp at h
            | .vNone, _ => simp at h
            | .vDict d, _ => simp at h
            | .vModule n, _ => simp at h
            | .vResModified p, _ => simp at h
        · cases h
      | str s => simp [evalExpr] at h
      | name id ctx => simp [evalExpr] at h
      | subscript b i ctx => simp [evalExpr] at h
      | binopMod l r => simp [evalExpr] at h
      | yieldE e' => simp [evalExpr] at h
      | call f' args' => simp [evalExpr] at h

/-- Statement evaluation in a clean environment yields clean values
and a clean environment. -/
theorem evalStmt_clean : ∀ (fuel : Nat),
    (∀ (env : Env) (s : PyStmt) (vs : List Value) (env' : Env),
      EnvClean env → evalStmt fuel env s = .ok (vs, env') →
      (∀ v ∈ vs, CleanVal v) ∧ EnvClean env')
    ∧ (∀ (env : Env) (l : List PyStmt) (vs : List Value) (env' : Env),
      EnvClean env → evalStmtList fuel env l = .ok (vs, env') →
      (∀ v ∈ vs, CleanVal v) ∧ EnvClean env') := by
  intro fuel
  induction fuel with
  | zero =>
    constructor
    · intro env s vs env' _ h; simp [evalStmt] at h
    · intro env l vs env' _ h; simp [evalStmtList] at h
  | succ fuel ih =>
    obtain ⟨ihS, ihL⟩ := ih
    constructor
    · intro env s vs env' henv h
      cases s with
      | passS =>
        simp only [evalStmt] at h
        cases h
        exact ⟨by simp, henv⟩
      | importS names =>
        simp only [evalStmt] at h
        cases h
        refine ⟨by simp, ?_⟩
        intro kv hkv
        rcases List.mem_append.mp hkv with hm | hm
        · exact henv _ hm
        · obtain ⟨n, _, rfl⟩ := List.mem_map.mp hm
          exact .module n
      | ifS t b o =>
        simp only [evalStmt, bind, Except.bind] at h
        split at h
        · simp at h
        · split at h
          · exact ihL env b vs env' henv h
          · exact ihL env o vs env' henv h
      | exprS v =>
        cases v with
        | yieldE e =>
          simp only [evalStmt, bind, Except.bind] at h
          cases he : evalExpr fuel env e with
          | error e' => rw [he] at h; cases h
          | ok ev =>
            rw [he] at h
            cases h
            refine ⟨?_, henv⟩
            intro x hx
            rw [List.mem_singleton.mp hx]
            exact evalExpr_clean fuel env e ev henv he
        | str s =>
          simp only [evalStmt, bind, Except.bind] at h
          cases he : evalExpr fuel env (.str s) with
          | error e' => rw [he] at h; cases h
          | ok ev => rw [he] at h; cases h; exact ⟨by simp, henv⟩
        | name id ctx =>
          simp only [evalStmt, bind, Except.bind] at h
          cases he : evalExpr fuel env (.name id ctx) with
          | error e' => rw [he] at h; cases h
          | ok ev => rw [he] at h; cases h; exact ⟨by simp, henv⟩
        | subscript b i ctx =>
          simp only [evalStmt, bind, Except.bind] at h
          cases he : evalExpr fuel env (.subscript b i ctx) with
          | error e' => rw [he] at h; cases h
          | ok ev => rw [he] at h; cases h; exact ⟨by simp, henv⟩
        | binopMod l r =>
          simp only [evalStmt, bind, Except.bind] at h
          cases he : evalExpr fuel env (.binopMod l r) with
          | error e' => rw [he] at h; cases h
          | ok ev => rw [he] at h; cases h; exact ⟨by simp, henv⟩
        | call f args =>
          simp only [evalStmt, bind, Except.bind] at h
          cases he : evalExpr fuel env (.call f args) with
          | error e' => rw [he] at h; cases h
          | ok ev => rw [he] at h; cases h; exact ⟨by simp, henv⟩
        | attributeE b a =>
          simp only [evalStmt, bind, Except.bind] at h
          cases he : evalExpr fuel env (.attributeE b a) with
          | error e' => rw [he] at h; cases h
          | ok ev => rw [he] at h; cases h; exact ⟨by simp, henv⟩
    · intro env l vs env' henv h
      cases l with
      | nil =>
        simp only [evalStmtList] at h
        cases h
        exact ⟨by simp, henv⟩
      | cons s rest =>
        simp only [evalStmtList, bind, Except.bind] at h
        split at h
        · simp at h
        next p1 heq1 =>
          split at h
          · simp at h
          next p2 heq2 =>
            cases h
            obtain ⟨hc1, he1⟩ := ihS env s p1.1 p1.2 henv heq1
            obtain ⟨hc2, he2⟩ := ihL p1.2 rest p2.1 p2.2 he1 heq2
            refine ⟨?_, he2⟩
            intro x hx
            rcases List.mem_append.mp hx with hm | hm
            · exact hc1 x hm
            · exact hc2 x hm

/-- A generator run with clean arguments produces a clean value
stream. -/
theorem runCode_clean {code : List PyStmt} {kw : List (List Char × Value)}
    {vals : List Value} (hkw : CleanArgs kw)
    (h : runCode code kw = .ok vals) : ∀ v ∈ vals, CleanVal v := by
  simp only [runCode, Except.map] at h
  cases hr : evalStmtList evalFuel ⟨[(tl "args", .vDict kw)]⟩ code with
  | error e' => rw [hr] at h; cases h
  | ok p =>
    rw [hr] at h
    obtain ⟨vs, env'⟩ := p
    cases h
    have henv : EnvClean ⟨[(tl "args", Value.vDict kw)]⟩ := by
      intro kv hkv
      rw [List.mem_singleton.mp hkv]
      exact .dict kw hkw
    exact ((evalStmt_clean evalFuel).2 _ code vs env' henv hr).1

/-- A clean stream never triggers the handshake's retry branch. -/
theorem executePhase_clean_no_retry {vals : List Value}
    (hc : ∀ v ∈ vals, CleanVal v) : executePhase vals ≠ .retrySkipCache := by
  cases vals with
  | nil => simp [executePhase]
  | cons v rest =>
    intro hr
    have hv := hc v (List.mem_cons_self _ _)
    cases v <;> simp [executePhase] at hr
    cases hv

/-- C4: the first value pulled from the compiled generator decides the
render outcome.  With the code found in the cache: a first value of
`None` releases the remaining stream to the caller; a
`ResourceModified` instance discards the generator and re-enters via
the retry continuation — which, in the inline-text branch, is the
recursive call with `skipCache` set to true; any other first value
raises. -/
theorem first_yield_handshake
    (cache : CodeCache) (h : Nat) (kw : List (List Char × Value)) (comp : Bool)
    (k : CodeCache → TRes) (code : List PyStmt) (rest : List Value)
    (p : List Char) (v : Value) (fuel : Nat) (text : List Char) (stripW : Bool)
    (cachet : CodeCache) :
    (cacheGet cache h = some code → runCode code kw = .ok (.vNone :: rest) →
      templateExecPhase cache h kw comp k = ⟨joinValues rest, cache, comp⟩)
    ∧ (cacheGet cache h = some code → runCode code kw = .ok (.vResModified p :: rest) →
      templateExecPhase cache h kw comp k = k cache)
    ∧ (cacheGet cache h = some code → runCode code kw = .ok (v :: rest) →
      v ≠ .vNone → (∀ q, v ≠ .vResModified q) →
      templateExecPhase cache h kw comp k = ⟨.error .firstValueExc, cache, comp⟩)
    ∧ (cacheGet cachet (subaHash text) = some code →
      runCode code kw = .ok (.vResModified p :: rest) →
      templateText (fuel + 1) cachet false text stripW kw
        = templateText fuel cachet true text stripW kw) := by
  refine ⟨?_, ?_, ?_, ?_⟩
  · intro h1 h2
    simp [templateExecPhase, h1, h2, executePhase]
  · intro h1 h2
    simp [templateExecPhase, h1, h2, executePhase]
  · intro h1 h2 hne hnq
    cases v with
    | vNone => exact absurd rfl hne
    | vResModified q => exact absurd rfl (hnq q)
    | vStr s => simp [templateExecPhase, h1, h2, executePhase]
    | vBool b => simp [templateExecPhase, h1, h2, executePhase]
    | vDict d => simp [templateExecPhase, h1, h2, executePhase]
    | vModule n => simp [templateExecPhase, h1, h2, executePhase]
  · intro h1 h2
    conv_lhs => rw [templateText]
    simp [h1, h2, templateExecPhase, executePhase]

/-- Witness for the handshake dispatch theorem, at concrete streams:
one yielding `None` then text, one yielding a `ResourceModified`
marker (fed in through the argument map), and one yielding a plain
string first. -/
theorem first_yield_handshake_witness :
    (templateExecPhase [(1, [.exprS (.yieldE (.name (tl "None") .load))])] 1 [] false
        (fun c => ⟨.error .fuelOut, c, true⟩)
      = ⟨joinValues [], [(1, [.exprS (.yieldE (.name (tl "None") .load))])], false⟩)
    ∧ (templateExecPhase
        [(1, [.exprS (.yieldE (.subscript (.name (tl "args") .load) (.str (tl "x")) .load))])]
        1 [(tl "x", .vResModified (tl "p"))] false (fun c => ⟨.error .fuelOut, c, true⟩)
      = (fun (c : CodeCache) => (⟨.error .fuelOut, c, true⟩ : TRes))
          [(1, [.exprS (.yieldE (.subscript (.name (tl "args") .load) (.str (tl "x")) .load))])])
    ∧ (templateExecPhase [(1, [.exprS (.yieldE (.str (tl "x")))])] 1 [] false
        (fun c => ⟨.error .fuelOut, c, true⟩)
      = ⟨.error .firstValueExc, [(1, [.exprS (.yieldE (.str (tl "x")))])], false⟩)
    ∧ (templateText 2
        [(subaHash (tl "t"),
          [.exprS (.yieldE (.subscript (.name (tl "args") .load) (.str (tl "x")) .load))])]
        false (tl "t") false [(tl "x", .vResModified (tl "p"))]
      = templateText 1
        [(subaHash (tl "t"),
          [.exprS (.yieldE (.subscript (.name (tl "args") .load) (.str (tl "x")) .load))])]
        true (tl "t") false [(tl "x", .vResModified (tl "p"))]) := by
  refine ⟨?_, ?_, ?_, ?_⟩
  · exact (first_yield_handshake _ 1 [] false _ _ [] (tl "p") .vNone 0 (tl "t") false []).1
      rfl rfl
  · exact (first_yield_handshake _ 1 [(tl "x", .vResModified (tl "p"))] false _ _ []
      (tl "p") .vNone 0 (tl "t") false []).2.1 rfl rfl
  · exact (first_yield_handshake _ 1 [] false _ _ [] (tl "p") (.vStr (tl "x")) 0 (tl "t")
      false []).2.2.1 rfl rfl (fun hh => by cases hh) (fun q hh => by cases hh)
  · exact (first_yield_handshake [] 1 [(tl "x", .vResModified (tl "p"))] false
      (fun c => ⟨.error .fuelOut, c, true⟩) _ [] (tl "p") .vNone 1 (tl "t") false _).2.2.2
      rfl rfl


/-- C3 counterexample: rendering the file `f` under root `.` (full
path `./f`, mtime 2) stores the compiled code under the key
`hash("./f") + 2`; the key `hash("./f") XOR 2` that the claim
prescribes is absent from the cache. -/
theorem cache_key_xor_refuted :
    (templateFile ⟨[(tl "./f", (2, tl "hi"))]⟩ 2 [] false (tl "f") (tl ".") false []).out
      = .ok (tl "hi")
    ∧ (cacheGet
        (templateFile ⟨[(tl "./f", (2, tl "hi"))]⟩ 2 [] false (tl "f") (tl ".") false []).cache
        (subaHash (tl "./f") + 2)).isSome = true
    ∧ (cacheGet
        (templateFile ⟨[(tl "./f", (2, tl "hi"))]⟩ 2 [] false (tl "f") (tl ".") false []).cache
        (subaHash (tl "./f") ^^^ 2)).isSome = false := by
  refine ⟨rfl, rfl, by decide⟩

/-- C3 amended: the cache key actually used is `hash(full_path) +
mtime(full_path)` — addition, not exclusive-or — for file-backed
templates (over the `..`-sanitised full path), and `hash(text)` for
inline-text templates: starting from an empty cache, a file render
stores its code under exactly that key, and a text render stores its
code under `hash(text)`. -/
theorem cache_key_is_hash_plus_mtime
    (w : World) (fuel : Nat) (filename root text : List Char) (stripW : Bool)
    (kw : List (List Char × Value)) (m m2 : Nat) (c1 content : List Char)
    (code codeT : List PyStmt)
    (hsan : worldGet w.files
        (joinSep (splitSep '/' root
          ++ (splitSep '/' filename).filter (fun f => !(f = tl "..") && !f.isEmpty)))
      = some (m, c1))
    (hraw : worldGet w.files (joinSep (splitSep '/' root ++ [filename])) = some (m2, content))
    (hcomp : compile_ast content stripW = .ok code)
    (hkw : CleanArgs kw)
    (hct : compile_ast text stripW = .ok codeT) :
    (templateFile w fuel [] false filename root stripW kw).cache
      = [(subaHash (joinSep (splitSep '/' root
            ++ (splitSep '/' filename).filter (fun f => !(f = tl "..") && !f.isEmpty))) + m,
          code)]
    ∧ cacheGet (templateText fuel [] false text stripW kw).cache (subaHash text)
      = some codeT := by
  constructor
  · rw [templateFile]
    simp only [hsan, hraw, hcomp, cacheGet, Option.isNone_none, Bool.or_true, if_true,
      cachePut, templateExecPhase]
    split
    · rfl
    · split <;> rfl
  · rw [templateText]
    simp only [cacheGet, Option.isNone_none, Bool.or_true, if_true, hct, cachePut,
      templateExecPhase]
    split
    · simp [cacheGet]
    next vals hrun =>
      split
      · simp [cacheGet]
      · simp [cacheGet]
      · simp [cacheGet]
      next heq =>
        exact absurd heq (executePhase_clean_no_retry (runCode_clean hkw hrun))

/-- Witness for the cache-key theorem at a concrete world: file `./f`
with mtime 2 containing `hi`, and the inline text `hi`. -/
theorem cache_key_is_hash_plus_mtime_witness :
    (templateFile ⟨[(tl "./f", (2, tl "hi"))]⟩ 2 [] false (tl "f") (tl ".") false []).cache
      = [(subaHash (joinSep (splitSep '/' (tl ".")
            ++ (splitSep '/' (tl "f")).filter (fun f => !(f = tl "..") && !f.isEmpty))) + 2,
          [.importS [tl "os"], .exprS (.yieldE (.name (tl "None") .load)),
           .exprS (.yieldE (.str (tl "hi")))])]
    ∧ cacheGet (templateText 2 [] false (tl "hi") false []).cache (subaHash (tl "hi"))
      = some [.importS [tl "os"], .exprS (.yieldE (.name (tl "None") .load)),
              .exprS (.yieldE (.str (tl "hi")))] :=
  cache_key_is_hash_plus_mtime ⟨[(tl "./f", (2, tl "hi"))]⟩ 2 (tl "f") (tl ".") (tl "hi")
    false [] 2 2 (tl "hi") (tl "hi")
    [.importS [tl "os"], .exprS (.yieldE (.name (tl "None") .load)),
     .exprS (.yieldE (.str (tl "hi")))]
    [.importS [tl "os"], .exprS (.yieldE (.name (tl "None") .load)),
     .exprS (.yieldE (.str (tl "hi")))]
    rfl rfl rfl (fun kv hkv => absurd hkv (List.not_mem_nil kv)) rfl

/-- A successful inline-text render leaves its compiled code in the
cache under `hash(text)`, and its output is the joined stream released
by the handshake. -/
theorem templateText_success_state
    (fuel : Nat) (cache : CodeCache) (text : List Char) (stripW : Bool)
    (kw : List (List Char × Value)) (s : List Char) (hkw : CleanArgs kw)
    (h1 : (templateText fuel cache false text stripW kw).out = .ok s) :
    ∃ code vals rest,
      cacheGet (templateText fuel cache false text stripW kw).cache (subaHash text) = some code
      ∧ runCode code kw = .ok vals ∧ executePhase vals = .output rest
      ∧ joinValues rest = .ok s := by
  rw [templateText] at h1 ⊢
  cases hc : cacheGet cache (subaHash text) with
  | some c0 =>
    simp only [hc, Option.isNone_some, Bool.or_false, Bool.false_eq_true, if_false,
      templateExecPhase] at h1 ⊢
    cases hrun : runCode c0 kw with
    | error e => simp only [hrun] at h1; simp at h1
    | ok vals =>
      simp only [hrun] at h1 ⊢
      cases hex : executePhase vals with
      | exhausted => simp only [hex] at h1; simp at h1
      | raiseExc => simp only [hex] at h1; simp at h1
      | retrySkipCache =>
        exact absurd hex (executePhase_clean_no_retry (runCode_clean hkw hrun))
      | output rest =>
        simp only [hex] at h1 ⊢
        refine ⟨c0, vals, rest, hc, hrun, hex, ?_⟩
        simpa using h1
  | none =>
    simp only [hc, Option.isNone_none, Bool.or_true, if_true] at h1 ⊢
    cases hcomp : compile_ast text stripW with
    | error e => simp only [hcomp] at h1; simp at h1
    | ok code =>
      simp only [hcomp, cachePut, templateExecPhase, cacheGet, if_pos] at h1 ⊢
      cases hrun : runCode code kw with
      | error e => simp only [hrun] at h1; simp at h1
      | ok vals =>
        simp only [hrun] at h1 ⊢
        cases hex : executePhase vals with
        | exhausted => simp only [hex] at h1; simp at h1
        | raiseExc => simp only [hex] at h1; simp at h1
        | retrySkipCache =>
          exact absurd hex (executePhase_clean_no_retry (runCode_clean hkw hrun))
        | output rest =>
          simp only [hex] at h1 ⊢
          refine ⟨code, vals, rest, by simp [cacheGet], hrun, hex, ?_⟩
          simpa using h1

/-- C9: after a successful render of an inline text, the cache lookup
by source identity succeeds, and a second render of the unchanged text
with the same arguments skips the compile branch, reuses the cached
code, and produces identical output. -/
theorem second_render_reuses_cached_code
    (fuel1 fuel2 : Nat) (cache : CodeCache) (text : List Char) (stripW : Bool)
    (kw : List (List Char × Value)) (s : List Char) (hkw : CleanArgs kw)
    (h1 : (templateText fuel1 cache false text stripW kw).out = .ok s) :
    (cacheGet (templateText fuel1 cache false text stripW kw).cache (subaHash text)).isSome
      = true
    ∧ (templateText fuel2 (templateText fuel1 cache false text stripW kw).cache
        false text stripW kw).compiled = false
    ∧ (templateText fuel2 (templateText fuel1 cache false text stripW kw).cache
        false text stripW kw).out = .ok s := by
  obtain ⟨code, vals, rest, hcache, hrun, hex, hjoin⟩ :=
    templateText_success_state fuel1 cache text stripW kw s hkw h1
  set C := (templateText fuel1 cache false text stripW kw).cache with hC
  refine ⟨by simp [hcache], ?_, ?_⟩
  · rw [templateText]
    simp only [hcache, Option.isNone_some, Bool.or_false, Bool.false_eq_true, if_false,
      templateExecPhase, hrun, hex]
  · rw [templateText]
    simp only [hcache, Option.isNone_some, Bool.or_false, Bool.false_eq_true, if_false,
      templateExecPhase, hrun, hex]
    exact hjoin

/-- Witness for the cache-reuse theorem: rendering the text `hi` twice
from an empty cache. -/
theorem second_render_reuses_cached_code_witness :
    (cacheGet (templateText 2 [] false (tl "hi") false []).cache (subaHash (tl "hi"))).isSome
      = true
    ∧ (templateText 2 (templateText 2 [] false (tl "hi") false []).cache
        false (tl "hi") false []).compiled = false
    ∧ (templateText 2 (templateText 2 [] false (tl "hi") false []).cache
        false (tl "hi") false []).out = .ok (tl "hi") :=
  second_render_reuses_cached_code 2 2 [] (tl "hi") false [] (tl "hi")
    (fun kv hkv => absurd hkv (List.not_mem_nil kv)) rfl

/-- C7 amended: for every bound string `s`, `%(s)q` renders as `s`
with every `"` replaced by backslash-quote (as the claim states), and
`%(s)m` renders as `s` with every newline replaced by a backslash
followed by a newline — a line continuation, not the two characters
backslash-`n`. -/
theorem q_and_m_escaping (v : List Char) :
    render (tl "%(s)q") [(tl "s", .vStr v)]
      = .ok (pyReplace v [ '"' ] [ '\\', '"' ])
    ∧ render (tl "%(s)m") [(tl "s", .vStr v)]
      = .ok (pyReplace v [ '\n' ] [ '\\', '\n' ]) := by
  constructor
  · have h : render (tl "%(s)q") [(tl "s", .vStr v)]
        = .ok (pyReplace v [ '"' ] [ '\\', '"' ] ++ []) := rfl
    rw [h, List.append_nil]
  · have h : render (tl "%(s)m") [(tl "s", .vStr v)]
        = .ok (pyReplace v [ '\n' ] [ '\\', '\n' ] ++ []) := rfl
    rw [h, List.append_nil]

/-- C1 amended: a `%` whose following byte `X` is outside `{(, /}`
makes the lexer emit a literal `%` chunk and resume scanning at `X`,
so `%X` renders as `%X` — including `X = %`, each `%` being handled
independently, so `%%` renders as `%%` rather than collapsing to a
single `%`. -/
theorem literal_percent_passthrough (c : Char)
    (h1 : c ≠ '(') (h2 : c ≠ '/') (h3 : c ≠ '%') :
    render [ 'a', '%', c, 'b' ] [] = .ok [ 'a', '%', c, 'b' ]
    ∧ render (tl "a%%b") [] = .ok (tl "a%%b") := by
  refine ⟨?_, rfl⟩
  have hch : gen_chunks [ 'a', '%', c, 'b' ]
      = .ok [([ 'a' ], none), ([ '%' ], none), ([c, 'b'], none)] := by
    simp [gen_chunks, gen_chunks_go, findSplit, Except.map, h1, h2, h3]
  have hast : gen_ast [([ 'a' ], none), ([ '%' ], none), ([c, 'b'], none)]
      = .ok [.emit (some (.exprS (.yieldE (.str [ 'a', '%', c, 'b' ])))) .noMotion] := by
    simp [gen_ast, gen_ast_go, genAstDirective, flushEvents, Except.map, h1, h2]
  have hbody : compileBody [ 'a', '%', c, 'b' ]
      = .ok [.exprS (.yieldE (.str [ 'a', '%', c, 'b' ]))] := by
    simp [compileBody, hch, hast, runCursorEvents, cursorStep, cAppend, commitRemaining,
      Except.map]
  have hca : compile_ast [ 'a', '%', c, 'b' ] false
      = .ok [.importS [tl "os"], .exprS (.yieldE (.name (tl "None") .load)),
             .exprS (.yieldE (.str [ 'a', '%', c, 'b' ]))] := by
    simp [compile_ast, hbody, transformModule, _yieldall, isIncludeCall, visitStmtsT,
      visitStmtT, visitExprT, transformFuel, bind, Except.bind, Except.map]
  have hrun : runCode [.importS [tl "os"], .exprS (.yieldE (.name (tl "None") .load)),
        .exprS (.yieldE (.str [ 'a', '%', c, 'b' ]))] []
      = .ok [.vNone, .vStr [ 'a', '%', c, 'b' ]] := by
    simp [runCode, evalStmtList, evalStmt, evalExpr, evalFuel, tl, bind, Except.bind,
      Except.map]
  show (templateText 2 [] false [ 'a', '%', c, 'b' ] false []).out = _
  rw [templateText]
  simp [cacheGet, hca, cachePut, templateExecPhase, hrun, executePhase, joinValues,
    Except.map]

/-- Witness for the literal-percent theorem at `X = x`. -/
theorem literal_percent_passthrough_witness :
    render [ 'a', '%', 'x', 'b' ] [] = .ok [ 'a', '%', 'x', 'b' ]
    ∧ render (tl "a%%b") [] = .ok (tl "a%%b") :=
  literal_percent_passthrough 'x' (by decide) (by decide) (by decide)

/-- Every character of an identifier is an identifier character. -/
theorem identChar_of_isIdentL {n : List Char} (h : isIdentL n = true) :
    ∀ c ∈ n, identChar c = true := by
  cases n with
  | nil => simp [isIdentL] at h
  | cons c0 rest =>
    simp only [isIdentL, Bool.and_eq_true] at h
    intro c hc
    rcases List.mem_cons.mp hc with rfl | hm
    · simp [identChar]
      rcases Bool.or_eq_true_iff.mp h.1 with ha | hu
      · exact Or.inl (Or.inl ha)
      · exact Or.inr (of_decide_eq_true hu)
    · exact (List.all_eq_true.mp h.2) c hm

/-- Identifier characters are none of the lexer's special bytes. -/
theorem ident_no_special {n : List Char} (h : isIdentL n = true) :
    ∀ c ∈ n, c ≠ '(' ∧ c ≠ ')' ∧ c ≠ ':' ∧ c ≠ ' ' := by
  intro c hc
  have hid := identChar_of_isIdentL h c hc
  refine ⟨?_, ?_, ?_, ?_⟩ <;> (intro h0; subst h0; exact absurd hid (by decide))

/-- Identifiers are non-empty. -/
theorem ident_ne_nil {n : List Char} (h : isIdentL n = true) : n ≠ [] := by
  cases n with
  | nil => simp [isIdentL] at h
  | cons c0 rest => exact List.cons_ne_nil c0 rest

/-- The lexer's balanced-parenthesis scan over a parenthesis-free
prefix finds the closing parenthesis right after it. -/
theorem match_forward_ident {n rest : List Char}
    (hpar : ∀ c ∈ n, c ≠ '(' ∧ c ≠ ')' ∧ c ≠ ':' ∧ c ≠ ' ') :
    match_forward ')' '(' (n ++ ')' :: rest) 1 = some (n, rest) := by
  induction n with
  | nil => simp [match_forward]
  | cons x xs ih =>
    have hx := hpar x (List.mem_cons_self x xs)
    simp only [List.cons_append, match_forward, hx.1, hx.2.1, if_neg, if_false]
    rw [if_neg (by decide : ¬(1 = 0))]
    rw [List.append_eq]
    rw [ih (fun c hc => hpar c (List.mem_cons_of_mem x hc))]
    rfl

/-- An identifier is not an `else:` or `elif ` header. -/
theorem ident_not_else_or_elif {n : List Char} (hid : isIdentL n = true) :
    (tl "else:").isPrefixOf n = false ∧ (tl "elif ").isPrefixOf n = false := by
  constructor
  · cases hp : (tl "else:").isPrefixOf n
    · rfl
    · exfalso
      have hpre : (tl "else:") <+: n := List.isPrefixOf_iff_prefix.mp hp
      have hcmem : ':' ∈ n := List.IsPrefix.mem (by decide) hpre
      exact absurd (identChar_of_isIdentL hid ':' hcmem) (by decide)
  · cases hp : (tl "elif ").isPrefixOf n
    · rfl
    · exfalso
      have hpre : (tl "elif ") <+: n := List.isPrefixOf_iff_prefix.mp hp
      have hcmem : ' ' ∈ n := List.IsPrefix.mem (by decide) hpre
      exact absurd (identChar_of_isIdentL hid ' ' hcmem) (by decide)

/-- An identifier does not end in a colon, so `gen_ast` does not treat
it as a block header. -/
theorem ident_getLast_ne_colon {n : List Char} (hid : isIdentL n = true) :
    ¬(n.getLast? = some ':') := by
  intro hl
  have hmem : ':' ∈ n := by
    have hin : ':' ∈ n.getLast? := by rw [hl]; rfl
    obtain ⟨h, heq⟩ := List.mem_getLast?_eq_getLast hin
    rw [heq]
    exact List.getLast_mem h
  exact absurd (identChar_of_isIdentL hid ':' hmem) (by decide)

/-- Identifiers are non-empty, as a Boolean. -/
theorem ident_isEmpty_false {n : List Char} (hid : isIdentL n = true) :
    n.isEmpty = false := by
  cases n with
  | nil => simp [isIdentL] at hid
  | cons c0 rest => rfl

/-- Lexing `%(<ident>)s`, fuel-generalised step. -/
theorem gen_chunks_go_name_spec {n : List Char} (f : Nat) (hid : isIdentL n = true) :
    gen_chunks_go (f + 1 + 1) ('%' :: '(' :: (n ++ [ ')', 's' ]))
      = .ok [([], none), ('(' :: (n ++ [ ')' ]), some [ 's' ])] := by
  have hmf : match_forward ')' '(' (n ++ ')' :: [ 's' ]) 1 = some (n, [ 's' ]) :=
    match_forward_ident (ident_no_special hid)
  simp only [gen_chunks_go, List.isEmpty_cons, findSplit, if_pos, reduceIte,
    Option.map_some]
  rw [show (n ++ [ ')', 's' ]) = n ++ ')' :: [ 's' ] from rfl, hmf]
  simp [typeReMatch, specPrefixChar, specFinalChar, Except.map, tl]

/-- Lexing `%(<ident>)s`: one directive chunk carrying the `s`
conversion specifier. -/
theorem gen_chunks_name_spec {n : List Char} (hid : isIdentL n = true) :
    gen_chunks ('%' :: '(' :: (n ++ [ ')', 's' ]))
      = .ok [([], none), ('(' :: (n ++ [ ')' ]), some [ 's' ])] := by
  rw [gen_chunks]
  rw [show ('%' :: '(' :: (n ++ [ ')', 's' ])).length + 1 = n.length + 3 + 1 + 1 from by
    simp [List.length_append]]
  exact gen_chunks_go_name_spec (n.length + 3) hid

/-- Parsing the `(<ident>)` directive with the `s` specifier: a single
yielded `"%s" % <ident>` expression. -/
theorem genAstDirective_name_spec {n : List Char} (hid : isIdentL n = true)
    (hkw : pyExprKeywords.contains n = false) :
    genAstDirective ('(' :: (n ++ [ ')' ])) (some [ 's' ])
      = .ok ([.emit (some (.exprS (.yieldE (.binopMod (.str (tl "%s")) (.name n .load)))))
               .noMotion], []) := by
  obtain ⟨hElse, hElif⟩ := ident_not_else_or_elif hid
  have hColon := ident_getLast_ne_colon hid
  simp only [genAstDirective, List.drop_one, List.tail_cons, List.dropLast_concat]
  rw [if_neg hColon]
  simp only [hElse, hElif, Bool.false_eq_true, if_false, pyParse,
    ident_isEmpty_false hid, hid, hkw, Bool.not_false, Bool.and_self, if_true]
  simp [tl]

/-- `gen_ast` on the lexed `%(<ident>)s` stream. -/
theorem gen_ast_name_spec {n : List Char} (hid : isIdentL n = true)
    (hkw : pyExprKeywords.contains n = false) :
    gen_ast [([], none), ('(' :: (n ++ [ ')' ]), some [ 's' ])]
      = .ok [.emit (some (.exprS (.yieldE (.binopMod (.str (tl "%s")) (.name n .load)))))
              .noMotion] := by
  simp only [gen_ast, gen_ast_go, flushEvents]
  rw [genAstDirective_name_spec hid hkw]
  simp [gen_ast_go, Except.map]

/-- Compiling `%(<ident>)s`: the free name is rebound to
`args[<ident>]` by the rewriter and the preamble is prepended. -/
theorem compile_ast_name_spec {n : List Char} (hid : isIdentL n = true)
    (hkw : pyExprKeywords.contains n = false)
    (h3 : (initialSeenStore ++ [tl "os"]).contains n = false)
    (h4 : pythonBuiltins.contains n = false)
    (h5 : ([tl "execute"] : List (List Char)).contains n = false)
    (h6 : n ≠ tl "include") :
    compile_ast ('%' :: '(' :: (n ++ [ ')', 's' ])) false
      = .ok [.importS [tl "os"], .exprS (.yieldE (.name (tl "None") .load)),
             .exprS (.yieldE (.binopMod (.str (tl "%s"))
               (.subscript (.name (tl "args") .load) (.str n) .load)))] := by
  have hbody : compileBody ('%' :: '(' :: (n ++ [ ')', 's' ]))
      = .ok [.exprS (.yieldE (.binopMod (.str (tl "%s")) (.name n .load)))] := by
    simp [compileBody, gen_chunks_name_spec hid, gen_ast_name_spec hid hkw,
      runCursorEvents, cursorStep, cAppend, commitRemaining]
  simp only [compile_ast, hbody, transformModule, _yieldall, isIncludeCall, transformFuel,
    List.map]
  simp only [visitStmtsT, visitStmtT, visitExprT, visit_Name, bind, Except.bind]
  have h3m : ¬ n ∈ initialSeenStore ∧ ¬ n = tl "os" := by simpa using h3
  have h4m : ¬ n ∈ pythonBuiltins := by simpa using h4
  have h5m : ¬ n = tl "execute" := by simpa using h5
  simp [h3m.1, h3m.2, h4m, h5m, h6, visitStmtsT]

/-- Running the compiled `%(<ident>)s` module with the identifier
bound to a string yields the handshake `None` and then that string. -/
theorem runCode_name_spec {n v : List Char} :
    runCode [.importS [tl "os"], .exprS (.yieldE (.name (tl "None") .load)),
             .exprS (.yieldE (.binopMod (.str (tl "%s"))
               (.subscript (.name (tl "args") .load) (.str n) .load)))]
        [(n, .vStr v)]
      = .ok [.vNone, .vStr v] := by
  simp [runCode, evalStmtList, evalStmt, evalExpr, evalFuel, bind, Except.bind, Except.map,
    dictGet, pyFormatMod, pyStr, tl]

/-- C5: a `Load`-context name that is not bound within the template
(not in `seenStore` — which at top level holds the reserved names plus
`os` — nor in `seenFuncs`, which holds `execute`), not a host builtin,
and not the reserved name `include`, is rewritten by the transformer
to `args[<name>]`; consequently rendering `%(<name>)s` with the
keyword argument `<name> = "v"` yields `v`. -/
theorem free_variable_rebinding (n v : List Char)
    (hid : isIdentL n = true)
    (hkw : pyExprKeywords.contains n = false)
    (h3 : (initialSeenStore ++ [tl "os"]).contains n = false)
    (h4 : pythonBuiltins.contains n = false)
    (h5 : ([tl "execute"] : List (List Char)).contains n = false)
    (h6 : n ≠ tl "include") :
    (visit_Name ⟨initialSeenStore ++ [tl "os"], [tl "execute"]⟩ n .load).2
      = .subscript (.name (tl "args") .load) (.str n) .load
    ∧ render ('%' :: '(' :: (n ++ [ ')', 's' ])) [(n, .vStr v)] = .ok v := by
  constructor
  · simp only [visit_Name]
    rw [if_neg h6]
    have h3m : ¬ n ∈ initialSeenStore ∧ ¬ n = tl "os" := by simpa using h3
    have h4m : ¬ n ∈ pythonBuiltins := by simpa using h4
    have h5m : ¬ n = tl "execute" := by simpa using h5
    simp [h3m.1, h3m.2, h4m, h5m]
  · show (templateText 2 [] false _ false _).out = _
    rw [templateText]
    simp [cacheGet, compile_ast_name_spec hid hkw h3 h4 h5 h6, cachePut, templateExecPhase,
      runCode_name_spec, executePhase, joinValues, Except.map]

/-- Witness for the free-variable rebinding theorem at the name `name`
and the value `John`. -/
theorem free_variable_rebinding_witness :
    (visit_Name ⟨initialSeenStore ++ [tl "os"], [tl "execute"]⟩ (tl "name") .load).2
      = .subscript (.name (tl "args") .load) (.str (tl "name")) .load
    ∧ render ('%' :: '(' :: (tl "name" ++ [ ')', 's' ])) [(tl "name", .vStr (tl "John"))]
      = .ok (tl "John") :=
  free_variable_rebinding (tl "name") (tl "John") (by decide) (by decide) (by decide)
    (by decide) (by decide) (by decide)
